import Mathlib

/-!
Verification development for the sdjsongrab repository: a shallow embedding
of the fingerprint-gated caching engine (`sdjsongrab.py`, `lib/util.py`,
`lib/sqlhelper.py`) together with proofs and refutations of the frozen
specification claims.

Conventions of the embedding:
* Python exceptions are modelled with `Except PyErr`; an exception aborts
  the run and (per the commit-at-checkpoints design of the program) the
  uncommitted writes of the aborted run are discarded, so an `Except.error`
  result carries no database state.
* Machine integers do not overflow in the modelled code paths (Python
  integers are unbounded), so `Nat`/`Int` are used directly.
* Database rows are modelled with records (typed tables) or association
  lists of field/value pairs (generic tables); a table keeps its rows in
  insertion order and `fetchone` returns the first matching row.
* Python dicts are modelled as association lists in key insertion order.
-/

set_option maxHeartbeats 4000000
set_option maxRecDepth 8000
set_option linter.unusedVariables false
set_option linter.unnecessarySimpa false
set_option linter.unnecessarySeqFocus false

namespace SDJ

/-- Python exception kinds raised by the embedded code. -/
inductive PyErr where
  | typeError
  | valueError
  | keyError
  | indexError
  | assertionError
  | attributeError
  deriving Repr, DecidableEq

instance instDecEqExcept {ε α : Type} [DecidableEq ε] [DecidableEq α] :
    DecidableEq (Except ε α)
  | .error e, .error f =>
    match decEq e f with
    | isTrue h => isTrue (h ▸ rfl)
    | isFalse h => isFalse (fun hc => h (by cases hc; rfl))
  | .error _, .ok _ => isFalse (fun hc => by cases hc)
  | .ok _, .error _ => isFalse (fun hc => by cases hc)
  | .ok a, .ok b =>
    match decEq a b with
    | isTrue h => isTrue (h ▸ rfl)
    | isFalse h => isFalse (fun hc => h (by cases hc; rfl))

/-! ## lib/util.py -/

/-- Embeds Python `range(start, stop, step)` for the positive-step case:
the positions `start, start + step, ...` strictly below `stop`. -/
def pyRange (start stop step : Nat) : List Nat :=
  if h : 0 < step ∧ start < stop then
    start :: pyRange (start + step) stop step
  else
    []
termination_by stop - start
decreasing_by omega

/-- Embeds `chunker(seq, size)` from `lib/util.py`:
`(seq[pos:pos + size] for pos in range(0, len(seq), size))`.
A Python slice `seq[pos:pos + size]` is `(seq.drop pos).take size`. -/
def chunker {α : Type} (seq : List α) (size : Nat) : List (List α) :=
  (pyRange 0 seq.length size).map (fun pos => (seq.drop pos).take size)

/-- A key/value lookup on an association list, returning the first binding;
this is Python `dict.get` under the unique-keys discipline of dicts. -/
def dictGet {β : Type} (l : List (String × β)) (k : String) : Option β :=
  match l with
  | [] => none
  | (k0, v) :: rest => if k0 = k then some v else dictGet rest k

/-- Python dict assignment `d[k] = v` on an association list: replace the
value in place when the key is present, else append the binding at the end. -/
def dictSet {β : Type} (l : List (String × β)) (k : String) (v : β) : List (String × β) :=
  match l with
  | [] => [(k, v)]
  | (k0, v0) :: rest => if k0 = k then (k0, v) :: rest else (k0, v0) :: dictSet rest k v

/-- Models the `new_schedules` accumulation of `store_schedule_index`:
`if not station_id in new_schedules: new_schedules[station_id] = []`
followed by `new_schedules[station_id].append(startdate)`. -/
def dictAppendList (l : List (String × List String)) (k v : String) : List (String × List String) :=
  match l with
  | [] => [(k, [v])]
  | (k0, vs) :: rest => if k0 = k then (k0, vs ++ [v]) :: rest else (k0, vs) :: dictAppendList rest k v

/-- Value of a decimal digit character, `none` for a non-digit. -/
def digitVal (c : Char) : Option Nat :=
  if c.isDigit then some (c.toNat - 48) else none

/-- Python `datetime`'s proleptic-Gregorian leap-year test. -/
def isLeapYear (y : Nat) : Bool :=
  (y % 4 == 0 && y % 100 != 0) || (y % 400 == 0)

/-- Number of days in month `m` of year `y`, as validated by
`datetime.date`. -/
def daysInMonth (y m : Nat) : Nat :=
  if m == 2 then (if isLeapYear y then 29 else 28)
  else if m == 4 || m == 6 || m == 9 || m == 11 then 30
  else 31

/-- Number of days in the months of year `y` strictly before month `m`. -/
def daysBeforeMonth (y m : Nat) : Nat :=
  (List.range (m - 1)).foldl (fun acc i => acc + daysInMonth y (i + 1)) 0

/-- Embeds `datetime.date(y, m, d).toordinal()`: day number of the
proleptic Gregorian calendar with 0001-01-01 as day 1. -/
def dateOrdinal (y m d : Nat) : Nat :=
  365 * (y - 1) + (y - 1) / 4 - (y - 1) / 100 + (y - 1) / 400 + daysBeforeMonth y m + d

/-- Validity of a calendar date as checked by `datetime.date(y, m, d)`
(which raises `ValueError` outside these bounds; four-digit years already
satisfy the upper year bound). -/
def validDate (y m d : Nat) : Bool :=
  1 ≤ y && 1 ≤ m && m ≤ 12 && 1 ≤ d && d ≤ daysInMonth y m

/-- Embeds `date_to_int` from `lib/util.py`: match the anchored regex
`(\d\d\d\d)-(\d\d)-(\d\d)` against the start of the string (a failed match
yields `None`) and convert the matched groups with
`datetime.date(...).toordinal()`, which raises `ValueError` for an
out-of-range month or day. -/
def date_to_int (s : String) : Except PyErr (Option Int) :=
  match s.data with
  | y1 :: y2 :: y3 :: y4 :: c1 :: m1 :: m2 :: c2 :: d1 :: d2 :: _ =>
    match digitVal y1, digitVal y2, digitVal y3, digitVal y4,
          digitVal m1, digitVal m2, digitVal d1, digitVal d2 with
    | some a, some b, some c, some d, some e, some f, some g, some h =>
      if c1 = '-' && c2 = '-' then
        let y := 1000 * a + 100 * b + 10 * c + d
        let m := 10 * e + f
        let dd := 10 * g + h
        if validDate y m dd then
          .ok (some (dateOrdinal y m dd : Nat))
        else
          .error .valueError
      else .ok none
    | _, _, _, _, _, _, _, _ => .ok none
  | _ => .ok none

/-- Ordinal of 1970-01-01, the Unix epoch, in `dateOrdinal`'s numbering. -/
def epochOrdinal : Nat := 719163

/-- Validity of a time of day as checked by `datetime.datetime`. -/
def validTime (h mi s : Nat) : Bool :=
  h ≤ 23 && mi ≤ 59 && s ≤ 59

/-- Embeds `sdtime_to_unixtime` from `lib/util.py`: assert that the string
ends in `Z` (an `AssertionError` otherwise), parse the rest with
`strptime("%Y-%m-%dT%H:%M:%S")` (a `ValueError` on any mismatch, including
trailing characters), and return the Unix timestamp.  The model fixes the
process time zone to UTC, so `datetime.timestamp()` becomes
`(toordinal - toordinal(1970-01-01)) * 86400` plus the seconds of the day. -/
def sdtime_to_unixtime (s : String) : Except PyErr Int :=
  if s.data.getLast? = some 'Z' then
    match s.data.dropLast with
    | [y1, y2, y3, y4, c1, m1, m2, c2, d1, d2, ct, h1, h2, cc1, n1, n2, cc2, s1, s2] =>
      match digitVal y1, digitVal y2, digitVal y3, digitVal y4,
            digitVal m1, digitVal m2, digitVal d1, digitVal d2,
            digitVal h1, digitVal h2, digitVal n1, digitVal n2,
            digitVal s1, digitVal s2 with
      | some a, some b, some c, some d, some e, some f, some g, some h,
        some p, some q, some u, some v, some w, some x =>
        if c1 = '-' && c2 = '-' && ct = 'T' && cc1 = ':' && cc2 = ':' then
          let y := 1000 * a + 100 * b + 10 * c + d
          let mo := 10 * e + f
          let dd := 10 * g + h
          let hh := 10 * p + q
          let mi := 10 * u + v
          let ss := 10 * w + x
          if validDate y mo dd && validTime hh mi ss then
            .ok (((dateOrdinal y mo dd : Int) - (epochOrdinal : Int)) * 86400
                  + (hh : Int) * 3600 + (mi : Int) * 60 + (ss : Int))
          else
            .error .valueError
        else .error .valueError
      | _, _, _, _, _, _, _, _, _, _, _, _, _, _ => .error .valueError
    | _ => .error .valueError
  else
    .error .assertionError

/-- Embeds `calc_string_from_stringlist` on a present list:
`"\t".join(stringlist)`. -/
def calc_string_from_stringlist (stringlist : List String) : String :=
  String.intercalate "\t" stringlist

/-- Embeds `SD_API.shorten_program_id`: `program_id[:10]`. -/
def shorten_program_id (program_id : String) : String :=
  program_id.take 10

/-- Embeds `SD_API.calc_short_program_ids`: shorten every id to its first
ten characters, dropping duplicates while keeping first-seen order. -/
def calc_short_program_ids (program_ids : List String) : List String :=
  program_ids.foldl
    (fun shortend item =>
      let short := shorten_program_id item
      if shortend.contains short then shortend else shortend ++ [short])
    []

/-! ### Chunker lemmas (used by several claims) -/

theorem pyRange_eq_nil (start stop step : Nat) (h : ¬ (0 < step ∧ start < stop)) :
    pyRange start stop step = [] := by
  rw [pyRange]
  simp [h]

theorem pyRange_eq_cons (start stop step : Nat) (h : 0 < step ∧ start < stop) :
    pyRange start stop step = start :: pyRange (start + step) stop step := by
  rw [pyRange]
  simp [h]

theorem chunker_flatten_aux {α : Type} (seq : List α) (size : Nat) (hs : 0 < size) :
    ∀ n pos, seq.length - pos ≤ n →
      ((pyRange pos seq.length size).map (fun p => (seq.drop p).take size)).flatten
        = seq.drop pos := by
  intro n
  induction n with
  | zero =>
    intro pos h
    have hge : seq.length ≤ pos := by omega
    rw [pyRange_eq_nil _ _ _ (by omega)]
    simp [List.drop_eq_nil_of_le hge]
  | succ n ih =>
    intro pos h
    by_cases hlt : pos < seq.length
    · rw [pyRange_eq_cons _ _ _ ⟨hs, hlt⟩]
      simp only [List.map_cons, List.flatten_cons]
      rw [ih (pos + size) (by omega)]
      rw [show seq.drop (pos + size) = (seq.drop pos).drop size from
        (List.drop_drop size pos seq).symm]
      exact List.take_append_drop _ _
    · have hge : seq.length ≤ pos := by omega
      rw [pyRange_eq_nil _ _ _ (by omega)]
      simp [List.drop_eq_nil_of_le hge]

/-- Concatenating the chunks in order restores the original list. -/
theorem chunker_flatten {α : Type} (seq : List α) (size : Nat) (hs : 0 < size) :
    (chunker seq size).flatten = seq := by
  have := chunker_flatten_aux seq size hs (seq.length) 0 (by omega)
  simpa [chunker] using this

/-- Every chunk is at most `size` long. -/
theorem chunker_length_le {α : Type} (seq : List α) (size : Nat) :
    ∀ c ∈ chunker seq size, c.length ≤ size := by
  intro c hc
  simp only [chunker, List.mem_map] at hc
  obtain ⟨pos, _, rfl⟩ := hc
  simpa using Nat.min_le_left size (seq.length - pos)

theorem chunker_dropLast_aux {α : Type} (seq : List α) (size : Nat) (hs : 0 < size) :
    ∀ n pos, seq.length - pos ≤ n →
      ∀ c ∈ (((pyRange pos seq.length size).map
                (fun p => (seq.drop p).take size)).dropLast),
        c.length = size := by
  intro n
  induction n with
  | zero =>
    intro pos h c hc
    rw [pyRange_eq_nil _ _ _ (by omega)] at hc
    simp at hc
  | succ n ih =>
    intro pos h c hc
    by_cases hlt : pos < seq.length
    · rw [pyRange_eq_cons _ _ _ ⟨hs, hlt⟩] at hc
      by_cases hrest : pos + size < seq.length
      · have hne : (pyRange (pos + size) seq.length size).map
            (fun p => (seq.drop p).take size) ≠ [] := by
          rw [pyRange_eq_cons _ _ _ ⟨hs, hrest⟩]
          simp
        rw [List.map_cons, List.dropLast_cons_of_ne_nil hne] at hc
        rcases List.mem_cons.mp hc with rfl | hc2
        · simp only [List.length_take, List.length_drop]
          omega
        · exact ih (pos + size) (by omega) c hc2
      · rw [pyRange_eq_nil _ _ _ (by omega)] at hc
        simp at hc
    · rw [pyRange_eq_nil _ _ _ (by omega)] at hc
      simp at hc

/-- Every chunk except possibly the last has length exactly `size`. -/
theorem chunker_dropLast_length {α : Type} (seq : List α) (size : Nat) (hs : 0 < size) :
    ∀ c ∈ (chunker seq size).dropLast, c.length = size := by
  intro c hc
  exact chunker_dropLast_aux seq size hs seq.length 0 (by omega) c (by simpa [chunker] using hc)

/-! ## Artwork resolver (`SD_API.proc_program_artwork_info`) -/

/-- The `caption` object of an artwork payload item; `content` may be
absent. -/
structure CaptionObj where
  content : Option String
  deriving Repr, DecidableEq

/-- One element of the `data` list of an artwork payload entry.  `uri` is a
required key; the others are read with `.get` and may be absent. -/
structure ArtItem where
  caption : Option CaptionObj
  category : Option String
  size : Option String
  uri : String
  width : Option Int
  height : Option Int
  deriving Repr, DecidableEq

/-- One artwork payload entry.  `data` is `none` when the `data` value is
not a list (the error envelope case, skipped by the code). -/
structure ArtEntry where
  programID : String
  data : Option (List ArtItem)
  deriving Repr, DecidableEq

/-- A stored asset: `(uri, caption, width, height)`. -/
abbrev AssetVal : Type := String × Option String × Option Int × Option Int

/-- The nested asset dictionary: category, then size, then the stored
assets in listing order. -/
abbrev Assets : Type := List (String × List (String × List AssetVal))

/-- Embeds the uri completion of `proc_program_artwork_info`: prepend the
image base address unless the uri already names a scheme. -/
def completeArtUri (uri : String) : String :=
  if uri.startsWith "http:" || uri.startsWith "https:" then uri
  else "https://json.schedulesdirect.org/20141201/image/" ++ uri

/-- One iteration of the asset-dictionary accumulation loop of
`proc_program_artwork_info`: items lacking a category or a size are
skipped, all other items are appended under their (category, size) bucket
in listing order. -/
def buildAssetsStep (assets : Assets) (item : ArtItem) : Assets :=
  let caption : Option String :=
    match item.caption with
    | none => none
    | some c => c.content
  match item.category, item.size with
  | some category, some size =>
    let uri := completeArtUri item.uri
    let v : AssetVal := (uri, caption, item.width, item.height)
    let cur := (dictGet assets category).getD []
    let curSizeList := (dictGet cur size).getD []
    dictSet assets category (dictSet cur size (curSizeList ++ [v]))
  | _, _ => assets

/-- The asset dictionary accumulated from a `data` list. -/
def buildAssets (dat : List ArtItem) : Assets :=
  dat.foldl buildAssetsStep []

/-- Models the Python comparison `dict_keys == []` (found in `best_match`
and in the `assetskeys == []` guard): a dict-keys view never equals a
list, whatever it holds, so the comparison is always `False`. -/
def dictKeysEqEmptyList (keys : List String) : Bool := false

/-- Embeds `best_match(current_list, preferred_list)` from
`proc_program_artwork_info`, where `current_list` is always a dict-keys
view: the `current_list == []` guard never fires, the first preferred
entry present wins, and the fall-back `list(current_list)[0]` raises
`IndexError` on an empty view. -/
def best_match (current_list preferred_list : List String) : Except PyErr (Option String) :=
  if dictKeysEqEmptyList current_list then .ok none
  else
    match preferred_list.find? (fun item => current_list.contains item) with
    | some item => .ok (some item)
    | none =>
      match current_list with
      | [] => .error .indexError
      | x :: _ => .ok (some x)

/-- Python subscription `d[k]` on a dict modelled as an association list:
`KeyError` when the key is absent.  A `None` key (the unreachable `None`
result of `best_match`) is likewise a `KeyError`. -/
def dictItem {β : Type} (l : List (String × β)) (k : Option String) : Except PyErr β :=
  match k with
  | none => .error .keyError
  | some key =>
    match dictGet l key with
    | some v => .ok v
    | none => .error .keyError

/-- The category preference order of `proc_program_artwork_info`. -/
def categoryPreference : List String :=
  ["Iconic", "Banner-L1", "Cast Ensemble", "Cast in Character"]

/-- The size preference order of `proc_program_artwork_info`. -/
def sizePreference : List String :=
  ["Md", "Sm", "Lg", "Xs", "Ms"]

/-- The per-entry selection of `proc_program_artwork_info` after the
(ineffective) empty-assets guard: pick the best category, then the best
size within it, then the first listed asset (`[0]`, an `IndexError` on an
empty bucket). -/
def selectBestAsset (assets : Assets) : Except PyErr AssetVal := do
  let best_cat ← best_match (assets.map Prod.fst) categoryPreference
  let catDict ← dictItem assets best_cat
  let best_size ← best_match (catDict.map Prod.fst) sizePreference
  let bucket ← dictItem catDict best_size
  match bucket with
  | [] => .error .indexError
  | v :: _ => .ok v

/-- The per-entry loop of `proc_program_artwork_info`: skip entries whose
`data` is not a list, accumulate the asset dictionary, run the
(never-firing) `assetskeys == []` guard, and record the best match under
the shortened program id. -/
def papiLoop (res : List (String × AssetVal)) :
    List ArtEntry → Except PyErr (List (String × AssetVal))
  | [] => .ok res
  | program_art :: rest =>
    match program_art.data with
    | none => papiLoop res rest
    | some dat =>
      let assets := buildAssets dat
      if dictKeysEqEmptyList (assets.map Prod.fst) then papiLoop res rest
      else do
        let v ← selectBestAsset assets
        papiLoop (dictSet res program_art.programID v) rest

/-- Embeds `SD_API.proc_program_artwork_info`. -/
def proc_program_artwork_info (data : List ArtEntry) : Except PyErr (List (String × AssetVal)) :=
  papiLoop [] data

/-- Embeds `SD_API.calc_program_artwork_info`: look the shortened program
id up in the resolved artwork dictionary. -/
def calc_program_artwork_info (program_id : String) (artworkinfo : List (String × AssetVal)) :
    Option AssetVal :=
  dictGet artworkinfo (shorten_program_id program_id)

/-! ## Merge engine (`lib/sqlhelper.py`, `Query_builder.insert_or_update`) -/

/-- An SQL value: text, integer or `NULL`. -/
inductive Value where
  | str (s : String)
  | int (n : Int)
  | null
  deriving Repr, DecidableEq

/-- A table row, modelled as the association list of its columns in
insertion order. -/
abbrev Row : Type := List (String × Value)

/-- SQL equality `column = ?`: never true when either operand is `NULL`
(an absent column in the row encoding also behaves as `NULL`). -/
def sqlEq (a b : Value) : Bool :=
  match a, b with
  | .null, _ => false
  | _, .null => false
  | a, b => a == b

/-- Whether a row matches `WHERE field = value` in SQL semantics. -/
def selMatch (r : Row) (field : String) (v : Value) : Bool :=
  match dictGet r field with
  | some w => sqlEq w v
  | none => false

/-- Python `sqlite3.Row` subscription `r[key]`: raises `IndexError` when
the column is unknown. -/
def rowGet (r : Row) (field : String) : Except PyErr Value :=
  match dictGet r field with
  | some v => .ok v
  | none => .error .indexError

/-- Python `list.index` over the accumulated field list (a `ValueError`
when the name is absent), returning the value at that position. -/
def fieldsIndexVal (fields : List (String × Value)) (name : String) : Except PyErr Value :=
  match dictGet fields name with
  | some v => .ok v
  | none => .error .valueError

/-- Effect of `UPDATE ... SET f1=?, f2=?, ...` on one row: set each listed
column in turn (appending a column that the row encoding lacks). -/
def updateRow (r : Row) (fields : List (String × Value)) : Row :=
  fields.foldl (fun row fv => dictSet row fv.1 fv.2) r

/-- Effect of `execute_update` with `WHERE select_field = selval` on the
table: update every matching row. -/
def updateMatching (table : List Row) (fields : List (String × Value))
    (select_database_field : String) (selval : Value) : List Row :=
  table.map (fun row =>
    if selMatch row select_database_field selval then updateRow row fields else row)

/-- Embeds `Query_builder.insert_or_update`: look up the first row whose
identity column equals the identity value; insert all fields when absent;
with a compare field, skip entirely when the stored compare value equals
the supplied one (Python `==`, so two `NULL`s compare equal); otherwise
update all fields keyed by the identity.  Returns the written/unchanged
flag of the original (`True` = written). -/
def insert_or_update (table : List Row) (fields : List (String × Value))
    (select_database_field : String) (compare_query_field : Option String) :
    Except PyErr (List Row × Bool) := do
  let selval ← fieldsIndexVal fields select_database_field
  let compval ← match compare_query_field with
    | none => pure Value.null
    | some cf => fieldsIndexVal fields cf
  match table.find? (fun r => selMatch r select_database_field selval) with
  | none => .ok (table ++ [(fields : Row)], true)
  | some r =>
    match compare_query_field with
    | some cf => do
      let oldval ← rowGet r cf
      if oldval == compval then
        .ok (table, false)
      else
        .ok (updateMatching table fields select_database_field selval, true)
    | none =>
      .ok (updateMatching table fields select_database_field selval, true)

/-! ## Cache store (`SDDB`) -/

/-- A row of the `stations` table (the columns the sync loop reads). -/
structure StationRow where
  station_id : String
  name : String
  query_from_sd : Bool
  active : Bool
  deriving Repr, DecidableEq

/-- A row of the `scheduleindex` table.  `id` is the SQLite rowid;
`startdate` is `NULL` when `date_to_int` returned `None`. -/
structure SchedIdxRow where
  id : Nat
  station_id : String
  startdate : Option Int
  last_modified : Int
  md5 : String
  deriving Repr, DecidableEq

/-- A row of the `schedule` table (one broadcast entry). -/
structure ScheduleRow where
  id : Nat
  station_id : String
  scheduleindex : Nat
  program_id : String
  airtime : Int
  duration : Int
  audioProperties : Option String
  videoProperties : Option String
  deriving Repr, DecidableEq

/-- The cache database: typed tables for the schedule machinery, generic
rows for `programdata` (written through the merge engine), and rowid
counters for the autoincremented tables. -/
structure DB where
  stations : List StationRow
  scheduleindex : List SchedIdxRow
  nextScheduleIndexId : Nat
  schedule : List ScheduleRow
  nextScheduleId : Nat
  programdata : List Row
  deriving Repr, DecidableEq

/-- Per-day fingerprint information from `get_schedules_md5_max`; `md5` is
a required key, `lastModified` may be absent (then `add2` raises
`KeyError`). -/
structure DayInfo where
  md5 : String
  lastModified : Option String
  deriving Repr, DecidableEq

/-- The nested fingerprint response: station id, then day string, then day
info, in dict insertion order. -/
abbrev SSIData : Type := List (String × List (String × DayInfo))

/-- The reserved fingerprint meaning "no schedule available for this day". -/
def SENTINEL_MD5 : String := "CAFEDEADBEEFCAFEDEADBE"

/-- Whether a `scheduleindex` row matches
`WHERE station_id=? AND startdate=?`; SQL equality with a `NULL` operand
on either side is never true. -/
def siMatches (r : SchedIdxRow) (station_id : String) (startdate_ord : Option Int) : Bool :=
  r.station_id == station_id &&
    (match r.startdate, startdate_ord with
     | some a, some b => a == b
     | _, _ => false)

/-- The `fetchone` lookup of `store_schedule_index` and
`get_schedule_index`: the first `scheduleindex` row for this station and
day ordinal. -/
def siFind (si : List SchedIdxRow) (station_id : String) (startdate_ord : Option Int) :
    Option SchedIdxRow :=
  si.find? (fun r => siMatches r station_id startdate_ord)

/-- The state threaded through `store_schedule_index`: the database, the
`new_schedules` dict and the invalid-schedule counter. -/
structure SSIState where
  db : DB
  new_schedules : List (String × List String)
  count_invalid : Nat
  deriving Repr, DecidableEq

/-- Conversion of the `lastModified` value by `add2` in
`store_schedule_index`: an absent key raises `KeyError`, a present one is
converted with `sdtime_to_unixtime`. -/
def convLastModified (lm : Option String) : Except PyErr Int :=
  match lm with
  | none => .error .keyError
  | some t => sdtime_to_unixtime t

/-- One iteration of the per-day loop of `SDDB.store_schedule_index`:
convert the date, count and skip sentinel days, then look up the stored
row; a changed fingerprint deletes the owned `schedule` rows and updates
the row in place, an absent row is inserted, an unchanged fingerprint is
skipped. -/
def ssiProcessDay (st : SSIState) (station_id startdate : String) (info : DayInfo) :
    Except PyErr SSIState := do
  let startdate_ord ← date_to_int startdate
  if info.md5 = SENTINEL_MD5 then
    .ok { st with count_invalid := st.count_invalid + 1 }
  else
    match siFind st.db.scheduleindex station_id startdate_ord with
    | some res =>
      if res.md5 = info.md5 then
        .ok st
      else do
        let db1 := { st.db with
          schedule := st.db.schedule.filter (fun e => e.scheduleindex != res.id) }
        let lm ← convLastModified info.lastModified
        let db2 := { db1 with
          scheduleindex := db1.scheduleindex.map (fun r =>
            if r.id = res.id then
              { r with station_id := station_id, startdate := startdate_ord,
                       last_modified := lm, md5 := info.md5 }
            else r) }
        .ok { db := db2,
              new_schedules := dictAppendList st.new_schedules station_id startdate,
              count_invalid := st.count_invalid }
    | none => do
      let lm ← convLastModified info.lastModified
      let row : SchedIdxRow :=
        { id := st.db.nextScheduleIndexId, station_id := station_id,
          startdate := startdate_ord, last_modified := lm, md5 := info.md5 }
      let db1 := { st.db with
        scheduleindex := st.db.scheduleindex ++ [row],
        nextScheduleIndexId := st.db.nextScheduleIndexId + 1 }
      .ok { db := db1,
            new_schedules := dictAppendList st.new_schedules station_id startdate,
            count_invalid := st.count_invalid }

/-- The inner (per-day) loop of `store_schedule_index`. -/
def ssiDays (st : SSIState) (station_id : String) :
    List (String × DayInfo) → Except PyErr SSIState
  | [] => .ok st
  | (startdate, info) :: rest => do
    let st2 ← ssiProcessDay st station_id startdate info
    ssiDays st2 station_id rest

/-- The outer (per-station) loop of `store_schedule_index`. -/
def ssiStations (st : SSIState) : SSIData → Except PyErr SSIState
  | [] => .ok st
  | (station_id, days) :: rest => do
    let st2 ← ssiDays st station_id days
    ssiStations st2 rest

/-- Embeds `SDDB.store_schedule_index`. -/
def store_schedule_index (db : DB) (data : SSIData) : Except PyErr SSIState :=
  ssiStations { db := db, new_schedules := [], count_invalid := 0 } data

/-- Embeds `SDDB.get_schedule_index`: the id of the `scheduleindex` row
for this station and day, if any. -/
def get_schedule_index (db : DB) (station_id startdate : String) :
    Except PyErr (Option Nat) := do
  let startdate_org ← date_to_int startdate
  .ok ((siFind db.scheduleindex station_id startdate_org).map (fun r => r.id))

/-- One element of a schedule item's `programs` list.  `programID`, `md5`,
`airDateTime` and `duration` are required keys; the property lists are
optional. -/
structure ProgramEntry where
  programID : String
  md5 : String
  airDateTime : String
  duration : Int
  audioProperties : Option (List String)
  videoProperties : Option (List String)
  deriving Repr, DecidableEq

/-- One full-schedule payload item: `stationID`,
`metadata.startDate` and the `programs` list. -/
structure SchedItem where
  stationID : String
  startDate : String
  programs : List ProgramEntry
  deriving Repr, DecidableEq

/-- The md5 cache lookup of `store_schedules`:
`SELECT md5 FROM programdata WHERE program_id=?` with `fetchone` and
`retparam`; `none` when no row matches, otherwise the `md5` column of the
first matching row (an `IndexError` if that column is missing from the
row encoding). -/
def programdataMd5 (db : DB) (program_id : String) : Except PyErr (Option Value) :=
  match db.programdata.find? (fun r => selMatch r "program_id" (Value.str program_id)) with
  | none => .ok none
  | some r => do
    let v ← rowGet r "md5"
    .ok (some v)

/-- Appends a program id to the `update_programs` worklist unless already
present (`if program_id not in update_programs`). -/
def appendIfNew (l : List String) (x : String) : List String :=
  if l.contains x then l else l ++ [x]

/-- One iteration of the per-program loop of `SDDB.store_schedules`:
insert the schedule row, then compare the entry's program fingerprint
with the cached `programdata` fingerprint and extend the worklist when it
is absent or different. -/
def ssProcessProgram (db : DB) (update_programs : List String) (stationID : String)
    (schedule_index : Nat) (p : ProgramEntry) : Except PyErr (DB × List String) := do
  let airtime ← sdtime_to_unixtime p.airDateTime
  let row : ScheduleRow :=
    { id := db.nextScheduleId, station_id := stationID, scheduleindex := schedule_index,
      program_id := p.programID, airtime := airtime, duration := p.duration,
      audioProperties := p.audioProperties.map calc_string_from_stringlist,
      videoProperties := p.videoProperties.map calc_string_from_stringlist }
  let db1 := { db with schedule := db.schedule ++ [row], nextScheduleId := db.nextScheduleId + 1 }
  let pmd5 ← programdataMd5 db1 p.programID
  let upd :=
    match pmd5 with
    | none => appendIfNew update_programs p.programID
    | some v => if v == Value.str p.md5 then update_programs else appendIfNew update_programs p.programID
  .ok (db1, upd)

/-- The per-program loop of `store_schedules`. -/
def ssPrograms (db : DB) (update_programs : List String) (stationID : String)
    (schedule_index : Nat) : List ProgramEntry → Except PyErr (DB × List String)
  | [] => .ok (db, update_programs)
  | p :: rest => do
    let (db1, upd1) ← ssProcessProgram db update_programs stationID schedule_index p
    ssPrograms db1 upd1 stationID schedule_index rest

/-- The per-item loop of `store_schedules`: resolve the owning
`scheduleindex` id (its absence is the asserted contract violation), then
insert every program entry. -/
def ssItems (db : DB) (update_programs : List String) :
    List SchedItem → Except PyErr (DB × List String)
  | [] => .ok (db, update_programs)
  | item :: rest => do
    let idx ← get_schedule_index db item.stationID item.startDate
    match idx with
    | none => .error .assertionError
    | some schedule_index => do
      let (db1, upd1) ← ssPrograms db update_programs item.stationID schedule_index item.programs
      ssItems db1 upd1 rest

/-- Embeds `SDDB.store_schedules`. -/
def store_schedules (db : DB) (data : List SchedItem) : Except PyErr (DB × List String) :=
  ssItems db [] data

/-! ## Program metadata extraction and `SDDB.store_programs` -/

/-- One element of a `descriptions` bucket: language and text, either may
be absent. -/
structure DescItem where
  descriptionLanguage : Option String
  description : Option String
  deriving Repr, DecidableEq

/-- One `cast`/`crew` member; `name` is a required key. -/
structure CastMember where
  name : String
  characterName : Option String
  role : Option String
  deriving Repr, DecidableEq

/-- The season/episode object found under the `Gracenote` key. -/
structure SeasonEpisode where
  season : Option Int
  episode : Option Int
  deriving Repr, DecidableEq

/-- The `movie` object of a program payload. -/
structure MovieInfo where
  year : Option Int
  deriving Repr, DecidableEq

/-- One full program payload item, with the raw substructures the
extractor functions of `sdjsongrab.py` consume.  `md5` and `programID`
are required keys; `none` elsewhere models an absent key. -/
structure ProgItem where
  md5 : String
  programID : String
  titles : Option (List (List (String × String)))
  descriptions : Option (List (String × List DescItem))
  genres : Option (List String)
  episodeTitle150 : Option String
  metadata : Option (List (List (String × SeasonEpisode)))
  cast : Option (List CastMember)
  crew : Option (List CastMember)
  entityType : Option String
  showType : Option String
  movie : Option MovieInfo
  deriving Repr, DecidableEq

/-- Embeds `get_from_simple_dict_list`: return the first value found under
a search key (items in order, keys in search order); otherwise fall back
to the longest value not exceeding `maxlength` (strictly-greater updates,
so the first longest wins). -/
def get_from_simple_dict_list (datadict : Option (List (List (String × String))))
    (searchkeys : List String) (maxlength : Option Nat) : Option String :=
  match datadict with
  | none => none
  | some items =>
    let found := items.foldl
      (fun acc item =>
        match acc with
        | some _ => acc
        | none => searchkeys.foldl
            (fun acc2 key => match acc2 with | some _ => acc2 | none => dictGet item key)
            none)
      none
    match found with
    | some r => some r
    | none =>
      (items.foldl
        (fun (st : Option String × Option Nat) item =>
          item.foldl
            (fun st2 kv =>
              let a := kv.2
              if (match maxlength with | none => true | some ml => decide (a.length ≤ ml)) then
                match st2.2 with
                | none => (some a, some a.length)
                | some curlen => if a.length > curlen then (some a, some a.length) else st2
              else st2)
            st)
        (none, none)).1

/-- Whether a lowercased language tag satisfies one preference key:
`lang == lkey or lang.startswith(lkey + "-")`. -/
def langMatches (lang lkey : String) : Bool :=
  lang == lkey || lang.startsWith (lkey ++ "-")

/-- Embeds `get_from_dict_list_with_languages` for the
`descriptionLanguage`/`description` key pair: scan every bucket whose key
is a search key, remember the last English value as the default and the
last value matching the preferred languages as the result. -/
def get_from_dict_list_with_languages (datadict : Option (List (String × List DescItem)))
    (searchkeys : List String) (languages : List String) : Option String :=
  match datadict with
  | none => none
  | some buckets =>
    let scan := buckets.foldl
      (fun (st : Option String × Option String) bucket =>
        if searchkeys.contains bucket.1 then
          bucket.2.foldl
            (fun (st2 : Option String × Option String) item =>
              match item.description, item.descriptionLanguage with
              | some value, some lang0 =>
                let lang := lang0.toLower
                let newDefault :=
                  if lang == "en" || lang.startsWith "en-" then some value else st2.2
                let newResult :=
                  if languages.any (fun lkey => langMatches lang lkey) then some value else st2.1
                (newResult, newDefault)
              | _, _ => st2)
            st
        else st)
      (none, none)
    match scan.1 with
    | some r => some r
    | none => scan.2

/-- Embeds the `"%dx%02d"` formatting of `calc_episode_number`. -/
def formatSeasonEpisode (season episode : Int) : String :=
  toString season ++ "x" ++
    (if 0 ≤ episode && episode < 10 then "0" ++ toString episode else toString episode)

/-- Embeds `calc_episode_number`: walk the metadata items, reassigning
season and episode from every `Gracenote` object, and stop once both are
set; format the pair when both survive. -/
def calc_episode_number (list_of_dicts : Option (List (List (String × SeasonEpisode)))) :
    Option String :=
  match list_of_dicts with
  | none => none
  | some items =>
    let final := items.foldl
      (fun (st : Option Int × Option Int × Bool) item =>
        match st with
        | (s, e, true) => (s, e, true)
        | (s, e, false) =>
          let se :=
            match dictGet item "Gracenote" with
            | some p => (p.season, p.episode)
            | none => (s, e)
          (se.1, se.2, se.1.isSome && se.2.isSome))
      (none, none, false)
    match final.1, final.2.1 with
    | some s, some e => some (formatSeasonEpisode s e)
    | _, _ => none

/-- Embeds `_get_cast_crew_string`: join `name` and the optional role with
`|`, then all members with tabs; an empty member list yields `None`. -/
def get_cast_crew_string (list_of_dicts : Option (List CastMember))
    (role_of : CastMember → Option String) : Option String :=
  match list_of_dicts with
  | none => none
  | some items =>
    let clist := items.map (fun item =>
      match role_of item with
      | some role => item.name ++ "|" ++ role
      | none => item.name)
    match clist with
    | [] => none
    | _ => some (String.intercalate "\t" clist)

/-- Embeds `get_casts_string` (`name`/`characterName`). -/
def get_casts_string (list_of_dicts : Option (List CastMember)) : Option String :=
  get_cast_crew_string list_of_dicts (fun m => m.characterName)

/-- Embeds `get_crew_string` (`name`/`role`). -/
def get_crew_string (list_of_dicts : Option (List CastMember)) : Option String :=
  get_cast_crew_string list_of_dicts (fun m => m.role)

/-- A possibly-`None` Python string as an SQL value. -/
def optStrVal : Option String → Value
  | some s => .str s
  | none => .null

/-- A possibly-`None` Python integer as an SQL value. -/
def optIntVal : Option Int → Value
  | some n => .int n
  | none => .null

/-- The field list accumulated by `SDDB.store_programs` for one program
item, in the exact `add`/`add2` order of the source (including the
`artwort_caption` column-name typo); `add2` with `optional=True` adds no
field when the data key is absent. -/
def program_fields (item : ProgItem) (now : Int)
    (artwork_info : Option (List (String × AssetVal))) : List (String × Value) :=
  ("md5", Value.str item.md5) ::
  ("program_id", Value.str item.programID) ::
  ("last_access", Value.int now) ::
  ("title120", optStrVal (get_from_simple_dict_list item.titles ["title120"] (some 120))) ::
  ("description100", optStrVal (get_from_dict_list_with_languages item.descriptions
      ["description100"] ["en", "de"])) ::
  ("description1000", optStrVal (get_from_dict_list_with_languages item.descriptions
      ["description1000"] ["en", "de"])) ::
  ((match item.genres with
    | none => []
    | some g => [("genres100", Value.str (calc_string_from_stringlist g))]) ++
   (match item.episodeTitle150 with
    | none => []
    | some t =>
      match calc_episode_number item.metadata with
      | some en => [("episodetitle158", Value.str (en ++ ": " ++ t))]
      | none => [("episodetitle158", Value.str t)]) ++
   (match item.cast with
    | none => []
    | some c => [("cast1000", optStrVal (get_casts_string (some c)))]) ++
   (match item.crew with
    | none => []
    | some c => [("crew1000", optStrVal (get_crew_string (some c)))]) ++
   (match item.entityType with
    | none => []
    | some e => [("entity_type", Value.str e)]) ++
   (match item.showType with
    | none => []
    | some s => [("show_type", Value.str s)]) ++
   (match item.movie with
    | none => []
    | some m =>
      match m.year with
      | none => []
      | some y => [("movie_year", Value.int y)]) ++
   (match artwork_info with
    | none => []
    | some ai =>
      match calc_program_artwork_info item.programID ai with
      | none => []
      | some art =>
        [("artwork_uri", Value.str art.1),
         ("artwort_caption", optStrVal art.2.1),
         ("artwork_width", optIntVal art.2.2.1),
         ("artwork_height", optIntVal art.2.2.2)]))

/-- The per-item loop of `SDDB.store_programs`: build the field list and
merge it into `programdata` keyed by `program_id` with compare field
`md5`. -/
def spItems (db : DB) (now : Int) (artwork_info : Option (List (String × AssetVal))) :
    List ProgItem → Except PyErr DB
  | [] => .ok db
  | item :: rest => do
    let fields := program_fields item now artwork_info
    let (t, _written) ← insert_or_update db.programdata fields "program_id" (some "md5")
    spItems { db with programdata := t } now artwork_info rest

/-- Embeds `SDDB.store_programs`; `now` models `int(time.time())` (held
fixed across the loop in this model). -/
def store_programs (db : DB) (data : List ProgItem)
    (artwork_info : Option (List (String × AssetVal))) (now : Int) : Except PyErr DB :=
  spItems db now artwork_info data

/-! ## The Stage B-D driver of `__main__` -/

def MAX_STATIONS_IDS : Nat := 5000
def MAX_PROGRAM_IDS : Nat := 5000
def MAX_ARTWORK_IDS : Nat := 500

/-- The remote service, as consumed by Stages B-D: fingerprints for a
station batch, full schedules for a dirty dict, artwork for shortened-id
batches, program metadata for id batches.  Modelling the remote as
functions makes "unchanged remote state" literal: the same `Remote` value
is consumed by both runs. -/
structure Remote where
  md5s : List String → SSIData
  schedules : List (String × List String) → List SchedItem
  artwork : List String → List ArtEntry
  programs : List String → List ProgItem

/-- Embeds `SDDB.get_active_query_stations` (without names):
`SELECT station_id FROM stations WHERE query_from_sd=1 and active=1`, in
table order. -/
def get_active_query_stations (db : DB) : List String :=
  (db.stations.filter (fun s => s.query_from_sd && s.active)).map (fun s => s.station_id)

/-- The program-metadata loop at the end of a chunk: fetch and store each
batch of at most `MAX_PROGRAM_IDS` ids (`get_programs_max` asserts the
bound). -/
def stageDPrograms (remote : Remote) (now : Int)
    (artwork_info : List (String × AssetVal)) :
    DB → List (List String) → Except PyErr DB
  | db, [] => .ok db
  | db, c :: rest => do
    if c.length > MAX_PROGRAM_IDS then .error .assertionError
    else do
      let db1 ← store_programs db (remote.programs c) (some artwork_info) now
      stageDPrograms remote now artwork_info db1 rest

/-- The body of one iteration of the station-chunk loop of `__main__`
(sdjsongrab.py lines 1639-1682): fingerprint discovery, then — for a
non-empty dirty set — full schedules, artwork and program metadata.
`get_schedules_md5_max` asserts at most `MAX_STATIONS_IDS` ids and
`get_schedules` asserts at most 500 station keys.  A non-zero
invalid-schedule count reaches `cfg.printNad_log(...)` (line 1647), an
attribute that `SD_Config` does not define, so it raises
`AttributeError`. -/
def processChunk (remote : Remote) (now : Int) (db : DB) (chunk : List String) :
    Except PyErr DB := do
  if chunk.length > MAX_STATIONS_IDS then .error .assertionError
  else do
    let dat := remote.md5s chunk
    let st ← store_schedule_index db dat
    if st.count_invalid ≠ 0 then .error .attributeError
    else
      if st.new_schedules.length > 0 then
        if st.new_schedules.length > 500 then .error .assertionError
        else do
          let dat2 := remote.schedules st.new_schedules
          let (db2, open_programs) ← store_schedules st.db dat2
          if open_programs.length > 0 then do
            let open_programs_shorts := calc_short_program_ids open_programs
            let all_artwork_dat := (chunker open_programs_shorts MAX_ARTWORK_IDS).foldl
              (fun acc c => acc ++ remote.artwork c) []
            let artwork_info ← proc_program_artwork_info all_artwork_dat
            stageDPrograms remote now artwork_info db2 (chunker open_programs MAX_PROGRAM_IDS)
          else .ok db2
      else .ok st.db

/-- The station-chunk loop of `__main__`. -/
def stageChunks (remote : Remote) (now : Int) : DB → List (List String) → Except PyErr DB
  | db, [] => .ok db
  | db, c :: rest => do
    let db1 ← processChunk remote now db c
    stageChunks remote now db1 rest

/-- Embeds the full Stage B-D sequence of `__main__`: compute the watch
set, and unless it is empty, process it in chunks of at most
`MAX_STATIONS_IDS` stations. -/
def stageBD (remote : Remote) (now : Int) (db : DB) : Except PyErr DB :=
  let query_stations := get_active_query_stations db
  if query_stations = [] then .ok db
  else stageChunks remote now db (chunker query_stations MAX_STATIONS_IDS)

/-! ## Schema upgrade and the start-up sequence of `__main__` -/

def CURRENT_DATABASE_SCHEMA_VERSION : Int := 0

/-- Embeds `SDDB.upgrade_database_schema`: nothing to do when the stored
version equals the required one; otherwise a missing plan is a failure,
and each plan entry above the stored version must have an existing script
file (the first missing one fails).  Returns the success flag and the
scripts executed, in order. -/
def upgrade_plan_run (vers : Int) (file_exists : String → Bool) :
    List (Int × String) → List String → Bool × List String
  | [], done => (true, done)
  | (uvers, ufnm) :: rest, done =>
    if vers < uvers then
      if file_exists ufnm then upgrade_plan_run vers file_exists rest (done ++ [ufnm])
      else (false, done)
    else upgrade_plan_run vers file_exists rest done

/-- Embeds `SDDB.upgrade_database_schema` (see `upgrade_plan_run`). -/
def upgrade_database_schema (vers current_schema_version : Int)
    (upgrade_plan : Option (List (Int × String))) (file_exists : String → Bool) :
    Bool × List String :=
  if vers = current_schema_version then (true, [])
  else
    match upgrade_plan with
    | none => (false, [])
    | some plan => upgrade_plan_run vers file_exists plan []

/-- Models the Python expression `int(time.time)` on sdjsongrab.py line
1619: `time.time` is a function object, not a number, so applying `int`
to it raises `TypeError`.  (Everywhere else the code correctly writes
`int(time.time())`.) -/
def int_of_time_function : Except PyErr Int := .error .typeError

/-- The environment of one `__main__` invocation: the stored schema
version, the outcomes of the remote checks, and the configured
`waituntil` value. -/
structure MainEnv where
  waituntilStored : Int
  now : Int
  dbVersion : Int
  tokenOk : Bool
  expired : Bool
  statusOk : Bool
  deriving Repr, DecidableEq

/-- How one `__main__` invocation ends, up to the point where the cache
tables would be touched (`refresh_lineups_and_stations_if_needed` and
Stages B-D). -/
inductive MainOutcome where
  | waitExit       -- sys.exit(10): the waituntil gate refused to run
  | tokenExit      -- sys.exit(2): no token
  | expiredExit    -- sys.exit(12): account expired
  | statusAbort    -- sys.exit(11): the intended unhealthy-status abort
  | crashExit      -- sys.exit(100): the top-level handler caught an exception
  | proceed        -- the run goes on to read and write the cache tables
  deriving Repr, DecidableEq

/-- Embeds the start-up sequence of `__main__` (sdjsongrab.py lines
1582-1624): the waituntil gate, the schema-upgrade call whose result is
discarded, token acquisition, expiry check, and the status check whose
abort branch evaluates `int(time.time)`.  Returns the outcome together
with the `waituntil` value persisted in the configuration file when the
process ends (`cfg.write()` is only called on the — unreachable — intended
abort path, so in every other outcome the stored value survives). -/
def sdjsongrab_main (env : MainEnv) : MainOutcome × Int :=
  if env.waituntilStored ≠ 0 ∧ env.waituntilStored > env.now then
    (.waitExit, env.waituntilStored)
  else
    -- line 1600: the success flag of the schema upgrade is discarded
    let _upgrade_ok :=
      (upgrade_database_schema env.dbVersion CURRENT_DATABASE_SCHEMA_VERSION none
        (fun _ => false)).1
    if ¬ env.tokenOk then (.tokenExit, env.waituntilStored)
    else if env.expired then (.expiredExit, env.waituntilStored)
    else if ¬ env.statusOk then
      match int_of_time_function with
      | .error _ => (.crashExit, env.waituntilStored)
      | .ok t => (.statusAbort, t + 3600)
    else (.proceed, env.waituntilStored)

/-! ## Helper lemmas: `Except` plumbing -/

@[simp] theorem except_bind_ok {ε α β : Type} (a : α) (f : α → Except ε β) :
    (Except.ok a >>= f) = f a := rfl

@[simp] theorem except_bind_error {ε α β : Type} (e : ε) (f : α → Except ε β) :
    ((Except.error e : Except ε α) >>= f) = Except.error e := rfl

@[simp] theorem except_map_ok {ε α β : Type} (f : α → β) (a : α) :
    (Except.ok a : Except ε α).map f = .ok (f a) := rfl

@[simp] theorem except_map_error {ε α β : Type} (f : α → β) (e : ε) :
    (Except.error e : Except ε α).map f = .error e := rfl

theorem except_ok_inj {ε α : Type} {a b : α} (h : (Except.ok a : Except ε α) = .ok b) :
    a = b := by
  cases h; rfl

theorem except_map_map {ε α β γ : Type} (f : α → β) (g : β → γ) (e : Except ε α) :
    (e.map f).map g = e.map (fun a => g (f a)) := by
  cases e <;> rfl

/-! ## Flattening `store_schedule_index` -/

/-- One fingerprint record of the flattened response: station id, day
string, day info. -/
abbrev FlatPair : Type := String × String × DayInfo

/-- The fingerprint response flattened in iteration order (Python iterates
the nested dicts in insertion order). -/
def flatPairs (data : SSIData) : List FlatPair :=
  data.flatMap (fun sd => sd.2.map (fun p => (sd.1, p.1, p.2)))

/-- The per-pair loop of `store_schedule_index` over the flattened
response. -/
def ssiFlat (st : SSIState) : List FlatPair → Except PyErr SSIState
  | [] => .ok st
  | (s, d, info) :: rest => do
    let st2 ← ssiProcessDay st s d info
    ssiFlat st2 rest

theorem ssiFlat_append (l1 l2 : List FlatPair) : ∀ st,
    ssiFlat st (l1 ++ l2) = (ssiFlat st l1) >>= (fun st2 => ssiFlat st2 l2) := by
  induction l1 with
  | nil => intro st; simp [ssiFlat]
  | cons p rest ih =>
    intro st
    obtain ⟨s, d, info⟩ := p
    show ssiFlat st ((s, d, info) :: (rest ++ l2)) = _
    simp only [ssiFlat]
    cases h : ssiProcessDay st s d info with
    | ok st2 => simp [h, ih]
    | error e => simp [h]

theorem ssiDays_eq_flat (station_id : String) (days : List (String × DayInfo)) :
    ∀ st, ssiDays st station_id days = ssiFlat st (days.map (fun p => (station_id, p.1, p.2))) := by
  induction days with
  | nil => intro st; rfl
  | cons p rest ih =>
    intro st
    obtain ⟨d, info⟩ := p
    simp only [ssiDays, List.map_cons, ssiFlat]
    cases h : ssiProcessDay st station_id d info with
    | ok st2 => simp [h, ih]
    | error e => simp [h]

theorem ssiStations_eq_flat (data : SSIData) :
    ∀ st, ssiStations st data = ssiFlat st (flatPairs data) := by
  induction data with
  | nil => intro st; rfl
  | cons sd rest ih =>
    intro st
    obtain ⟨sid, days⟩ := sd
    have hfp : flatPairs ((sid, days) :: rest)
        = days.map (fun p => (sid, p.1, p.2)) ++ flatPairs rest := by
      simp [flatPairs]
    rw [hfp, ssiFlat_append]
    simp only [ssiStations]
    rw [ssiDays_eq_flat]
    cases h : ssiFlat st (days.map (fun p => (sid, p.1, p.2))) with
    | ok st2 => simp [h, ih]
    | error e => simp [h]

theorem store_schedule_index_eq_flat (db : DB) (data : SSIData) :
    store_schedule_index db data
      = ssiFlat { db := db, new_schedules := [], count_invalid := 0 } (flatPairs data) :=
  ssiStations_eq_flat data _

/-! ## Case lemmas for one `store_schedule_index` iteration -/

/-- The state produced by the changed-fingerprint branch of
`ssiProcessDay`: owned `schedule` rows deleted, the index row updated in
place, the day marked dirty. -/
def updState (st : SSIState) (s d : String) (info : DayInfo) (o : Option Int)
    (res : SchedIdxRow) (lm : Int) : SSIState :=
  { db := { st.db with
      schedule := st.db.schedule.filter (fun e => e.scheduleindex != res.id),
      scheduleindex := st.db.scheduleindex.map (fun r =>
        if r.id = res.id then
          { r with station_id := s, startdate := o, last_modified := lm, md5 := info.md5 }
        else r) },
    new_schedules := dictAppendList st.new_schedules s d,
    count_invalid := st.count_invalid }

/-- The state produced by the new-day branch of `ssiProcessDay`: a fresh
index row appended, the day marked dirty. -/
def insState (st : SSIState) (s d : String) (info : DayInfo) (o : Option Int)
    (lm : Int) : SSIState :=
  { db := { st.db with
      scheduleindex := st.db.scheduleindex ++
        [{ id := st.db.nextScheduleIndexId, station_id := s, startdate := o,
           last_modified := lm, md5 := info.md5 }],
      nextScheduleIndexId := st.db.nextScheduleIndexId + 1 },
    new_schedules := dictAppendList st.new_schedules s d,
    count_invalid := st.count_invalid }

theorem ssiProcessDay_sentinel {st : SSIState} {s d : String} {info : DayInfo} {o : Option Int}
    (h1 : date_to_int d = .ok o) (h2 : info.md5 = SENTINEL_MD5) :
    ssiProcessDay st s d info = .ok { st with count_invalid := st.count_invalid + 1 } := by
  simp [ssiProcessDay, h1, h2]

theorem ssiProcessDay_skip {st : SSIState} {s d : String} {info : DayInfo} {o : Option Int}
    {res : SchedIdxRow}
    (h1 : date_to_int d = .ok o) (h2 : info.md5 ≠ SENTINEL_MD5)
    (h3 : siFind st.db.scheduleindex s o = some res) (h4 : res.md5 = info.md5) :
    ssiProcessDay st s d info = .ok st := by
  simp [ssiProcessDay, h1, h2, h3, h4]

theorem ssiProcessDay_update {st : SSIState} {s d : String} {info : DayInfo} {o : Option Int}
    {res : SchedIdxRow} {lm : Int}
    (h1 : date_to_int d = .ok o) (h2 : info.md5 ≠ SENTINEL_MD5)
    (h3 : siFind st.db.scheduleindex s o = some res) (h4 : res.md5 ≠ info.md5)
    (h5 : convLastModified info.lastModified = .ok lm) :
    ssiProcessDay st s d info = .ok (updState st s d info o res lm) := by
  simp [ssiProcessDay, h1, h2, h3, h4, h5, updState]

theorem ssiProcessDay_insert {st : SSIState} {s d : String} {info : DayInfo} {o : Option Int}
    {lm : Int}
    (h1 : date_to_int d = .ok o) (h2 : info.md5 ≠ SENTINEL_MD5)
    (h3 : siFind st.db.scheduleindex s o = none)
    (h5 : convLastModified info.lastModified = .ok lm) :
    ssiProcessDay st s d info = .ok (insState st s d info o lm) := by
  simp [ssiProcessDay, h1, h2, h3, h5, insState]

/-- Inversion of one successful `ssiProcessDay` iteration into its four
branches. -/
theorem ssiProcessDay_inv {st st2 : SSIState} {s d : String} {info : DayInfo}
    (h : ssiProcessDay st s d info = .ok st2) :
    ∃ o, date_to_int d = .ok o ∧
      ((info.md5 = SENTINEL_MD5 ∧ st2 = { st with count_invalid := st.count_invalid + 1 }) ∨
       (info.md5 ≠ SENTINEL_MD5 ∧ ∃ res, siFind st.db.scheduleindex s o = some res ∧
          res.md5 = info.md5 ∧ st2 = st) ∨
       (info.md5 ≠ SENTINEL_MD5 ∧ ∃ res lm, siFind st.db.scheduleindex s o = some res ∧
          res.md5 ≠ info.md5 ∧ convLastModified info.lastModified = .ok lm ∧
          st2 = updState st s d info o res lm) ∨
       (info.md5 ≠ SENTINEL_MD5 ∧ ∃ lm, siFind st.db.scheduleindex s o = none ∧
          convLastModified info.lastModified = .ok lm ∧ st2 = insState st s d info o lm)) := by
  cases hdt : date_to_int d with
  | error e => simp [ssiProcessDay, hdt] at h
  | ok o =>
    refine ⟨o, rfl, ?_⟩
    by_cases hs : info.md5 = SENTINEL_MD5
    · left
      rw [ssiProcessDay_sentinel hdt hs] at h
      exact ⟨hs, (except_ok_inj h).symm⟩
    · cases hf : siFind st.db.scheduleindex s o with
      | some res =>
        by_cases hmd : res.md5 = info.md5
        · right; left
          rw [ssiProcessDay_skip hdt hs hf hmd] at h
          exact ⟨hs, res, rfl, hmd, (except_ok_inj h).symm⟩
        · cases hcv : convLastModified info.lastModified with
          | error e => simp [ssiProcessDay, hdt, hs, hf, hmd, hcv] at h
          | ok lm =>
            right; right; left
            rw [ssiProcessDay_update hdt hs hf hmd hcv] at h
            exact ⟨hs, res, lm, rfl, hmd, rfl, (except_ok_inj h).symm⟩
      | none =>
        cases hcv : convLastModified info.lastModified with
        | error e => simp [ssiProcessDay, hdt, hs, hf, hcv] at h
        | ok lm =>
          right; right; right
          rw [ssiProcessDay_insert hdt hs hf hcv] at h
          exact ⟨hs, lm, rfl, rfl, (except_ok_inj h).symm⟩

/-! ## No-write and sentinel-count lemmas for `store_schedule_index` -/

/-- Number of sentinel fingerprints among the flattened pairs. -/
def sentCount (pairs : List FlatPair) : Nat :=
  pairs.countP (fun p => p.2.2.md5 == SENTINEL_MD5)

/-- Whether `date_to_int` returns without raising on this day string. -/
def dateNoErrB (d : String) : Bool :=
  match date_to_int d with
  | .ok _ => true
  | .error _ => false

/-- Whether `date_to_int` returns an actual ordinal on this day string. -/
def dateSomeB (d : String) : Bool :=
  match date_to_int d with
  | .ok (some _) => true
  | _ => false

/-- The day key the code computes for a fetched day string (`none` both
for a failed regex match and, vacuously, for a raising conversion). -/
def resolveDate (d : String) : Option Int :=
  match date_to_int d with
  | .ok o => o
  | .error _ => none

/-- Whether the database already stores this pair's fingerprint under this
pair's key. -/
def pairMatchedB (db : DB) (p : FlatPair) : Bool :=
  match siFind db.scheduleindex p.1 (resolveDate p.2.1) with
  | some r => r.md5 == p.2.2.md5
  | none => false

/-- Whether a pair triggers no write: its date converts without raising,
and it is a sentinel day or its stored fingerprint is unchanged. -/
def pairOkB (db : DB) (p : FlatPair) : Bool :=
  dateNoErrB p.2.1 && (p.2.2.md5 == SENTINEL_MD5 || pairMatchedB db p)

theorem dateNoErr_exists {d : String} (h : dateNoErrB d = true) :
    ∃ o, date_to_int d = .ok o := by
  unfold dateNoErrB at h
  cases hd : date_to_int d with
  | ok o => exact ⟨o, rfl⟩
  | error e => rw [hd] at h; simp at h

theorem dateSome_resolve {d : String} (h : dateSomeB d = true) :
    date_to_int d = .ok (resolveDate d) ∧ ∃ n, resolveDate d = some n := by
  unfold dateSomeB at h
  cases hd : date_to_int d with
  | ok o =>
    cases o with
    | some n => exact ⟨by simp [resolveDate, hd], n, by simp [resolveDate, hd]⟩
    | none => rw [hd] at h; simp at h
  | error e => rw [hd] at h; simp at h

/-- Fingerprint idempotency at the `store_schedule_index` level: when every
pair is a sentinel or matches the stored fingerprint, the loop writes
nothing, marks nothing dirty, and only counts the sentinels. -/
theorem ssiFlat_identity : ∀ (pairs : List FlatPair) (db : DB)
    (ns : List (String × List String)) (c : Nat),
    (∀ p ∈ pairs, pairOkB db p = true) →
    ssiFlat ⟨db, ns, c⟩ pairs = .ok ⟨db, ns, c + sentCount pairs⟩ := by
  intro pairs
  induction pairs with
  | nil => intro db ns c h; simp [ssiFlat, sentCount]
  | cons p rest ih =>
    intro db ns c h
    obtain ⟨s, d, info⟩ := p
    have hp := h _ (List.mem_cons_self _ _)
    simp only [pairOkB, Bool.and_eq_true, Bool.or_eq_true] at hp
    obtain ⟨hdate, hrest⟩ := hp
    obtain ⟨o, ho⟩ := dateNoErr_exists hdate
    by_cases hs : info.md5 = SENTINEL_MD5
    · simp only [ssiFlat]
      rw [ssiProcessDay_sentinel ho hs]
      simp only [except_bind_ok]
      rw [ih db ns (c + 1) (fun q hq => h q (List.mem_cons_of_mem _ hq))]
      have : c + 1 + sentCount rest = c + sentCount ((s, d, info) :: rest) := by
        simp only [sentCount, List.countP_cons]
        simp [hs]
        omega
      rw [this]
    · have hmatch : pairMatchedB db (s, d, info) = true := by
        rcases hrest with hsent | hm
        · exact absurd (by simpa using hsent) hs
        · exact hm
      unfold pairMatchedB at hmatch
      have hres : resolveDate d = o := by simp [resolveDate, ho]
      rw [hres] at hmatch
      cases hf : siFind db.scheduleindex s o with
      | none => rw [hf] at hmatch; simp at hmatch
      | some res =>
        rw [hf] at hmatch
        have hmd : res.md5 = info.md5 := by simpa using hmatch
        simp only [ssiFlat]
        rw [show ssiProcessDay ⟨db, ns, c⟩ s d info = .ok ⟨db, ns, c⟩ from
          ssiProcessDay_skip ho hs hf hmd]
        simp only [except_bind_ok]
        rw [ih db ns c (fun q hq => h q (List.mem_cons_of_mem _ hq))]
        have : c + sentCount rest = c + sentCount ((s, d, info) :: rest) := by
          simp only [sentCount, List.countP_cons]
          simp [hs]
        rw [this]

/-- Every successful `store_schedule_index` run counts exactly the
sentinel pairs. -/
theorem ssiFlat_count : ∀ (pairs : List FlatPair) (st st2 : SSIState),
    ssiFlat st pairs = .ok st2 →
    st2.count_invalid = st.count_invalid + sentCount pairs := by
  intro pairs
  induction pairs with
  | nil =>
    intro st st2 h
    simp only [ssiFlat] at h
    rw [← except_ok_inj h]
    simp [sentCount]
  | cons p rest ih =>
    intro st st2 h
    obtain ⟨s, d, info⟩ := p
    simp only [ssiFlat] at h
    cases hstep : ssiProcessDay st s d info with
    | error e => rw [hstep] at h; simp at h
    | ok st1 =>
      rw [hstep] at h
      simp only [except_bind_ok] at h
      have hmid := ih st1 st2 h
      obtain ⟨o, ho, hcase⟩ := ssiProcessDay_inv hstep
      have hcnt : st1.count_invalid
          = st.count_invalid + (if info.md5 == SENTINEL_MD5 then 1 else 0) := by
        rcases hcase with ⟨hs, rfl⟩ | ⟨hs, res, hf, hmd, rfl⟩
          | ⟨hs, res, lm, hf, hmd, hcv, rfl⟩ | ⟨hs, lm, hf, hcv, rfl⟩
        · simp [hs]
        · simp [hs]
        · simp [updState, hs]
        · simp [insState, hs]
      rw [hmid, hcnt]
      simp only [sentCount, List.countP_cons]
      by_cases hs : info.md5 == SENTINEL_MD5 <;> simp [hs] <;> omega

/-- Shifting the invalid counter commutes with one iteration. -/
theorem ssiProcessDay_addCount (k : Nat) (st : SSIState) (s d : String) (info : DayInfo) :
    ssiProcessDay { st with count_invalid := st.count_invalid + k } s d info
      = (ssiProcessDay st s d info).map
          (fun st2 => { st2 with count_invalid := st2.count_invalid + k }) := by
  cases hdt : date_to_int d with
  | error e => simp [ssiProcessDay, hdt]
  | ok o =>
    by_cases hs : info.md5 = SENTINEL_MD5
    · rw [@ssiProcessDay_sentinel { st with count_invalid := st.count_invalid + k } s d info o
            hdt hs,
          ssiProcessDay_sentinel hdt hs]
      simp
      omega
    · cases hf : siFind st.db.scheduleindex s o with
      | some res =>
        by_cases hmd : res.md5 = info.md5
        · rw [@ssiProcessDay_skip { st with count_invalid := st.count_invalid + k } s d info o res
              hdt hs hf hmd, ssiProcessDay_skip hdt hs hf hmd]
          rfl
        · cases hcv : convLastModified info.lastModified with
          | error e => simp [ssiProcessDay, hdt, hs, hf, hmd, hcv]
          | ok lm =>
            rw [@ssiProcessDay_update { st with count_invalid := st.count_invalid + k }
                  s d info o res lm hdt hs hf hmd hcv,
                ssiProcessDay_update hdt hs hf hmd hcv]
            simp [updState]
      | none =>
        cases hcv : convLastModified info.lastModified with
        | error e => simp [ssiProcessDay, hdt, hs, hf, hcv]
        | ok lm =>
          rw [@ssiProcessDay_insert { st with count_invalid := st.count_invalid + k }
                s d info o lm hdt hs hf hcv,
              ssiProcessDay_insert hdt hs hf hcv]
          simp [insState]

/-- Shifting the invalid counter commutes with the whole loop. -/
theorem ssiFlat_addCount (k : Nat) : ∀ (pairs : List FlatPair) (st : SSIState),
    ssiFlat { st with count_invalid := st.count_invalid + k } pairs
      = (ssiFlat st pairs).map
          (fun st2 => { st2 with count_invalid := st2.count_invalid + k }) := by
  intro pairs
  induction pairs with
  | nil => intro st; simp [ssiFlat]
  | cons p rest ih =>
    intro st
    obtain ⟨s, d, info⟩ := p
    simp only [ssiFlat]
    rw [ssiProcessDay_addCount]
    cases h : ssiProcessDay st s d info with
    | error e => simp
    | ok st1 => simpa using ih st1

/-- Whether a flattened pair is a real (non-sentinel) day. -/
def isNotSentinel (p : FlatPair) : Bool := p.2.2.md5 != SENTINEL_MD5

/-- Sentinel exclusion at the flattened level: a run on the full pair list
equals the run on the sentinel-free pair list with the counter raised by
the number of sentinel pairs (provided the sentinel pairs' date strings
convert without raising, since `date_to_int` runs before the sentinel
check). -/
theorem ssiFlat_drop_sentinels : ∀ (pairs : List FlatPair) (st : SSIState),
    (∀ p ∈ pairs, isNotSentinel p = false → dateNoErrB p.2.1 = true) →
    ssiFlat st pairs
      = (ssiFlat st (pairs.filter isNotSentinel)).map
          (fun st2 => { st2 with count_invalid := st2.count_invalid + sentCount pairs }) := by
  intro pairs
  induction pairs with
  | nil =>
    intro st h
    simp [ssiFlat, sentCount]
  | cons p rest ih =>
    intro st h
    obtain ⟨s, d, info⟩ := p
    by_cases hs : info.md5 = SENTINEL_MD5
    · have hnotsent : isNotSentinel (s, d, info) = false := by simp [isNotSentinel, hs]
      obtain ⟨o, ho⟩ := dateNoErr_exists (h _ (List.mem_cons_self _ _) hnotsent)
      have hstep := @ssiProcessDay_sentinel st s d info o ho hs
      simp only [ssiFlat]
      rw [hstep]
      simp only [except_bind_ok]
      have hshift := ssiFlat_addCount 1 rest st
      rw [show ({ st with count_invalid := st.count_invalid + 1 } : SSIState)
            = { st with count_invalid := st.count_invalid + 1 } from rfl] at hshift
      rw [hshift, ih st (fun q hq hq2 => h q (List.mem_cons_of_mem _ hq) hq2)]
      rw [except_map_map]
      have hfilter : List.filter isNotSentinel ((s, d, info) :: rest)
          = List.filter isNotSentinel rest := by
        simp [List.filter_cons, hnotsent]
      rw [hfilter]
      cases hrun : ssiFlat st (List.filter isNotSentinel rest) with
      | error e => simp
      | ok stF =>
        simp only [except_map_ok]
        have : sentCount ((s, d, info) :: rest) = sentCount rest + 1 := by
          simp only [sentCount, List.countP_cons]
          simp [hs]
        rw [this]
        congr 1
    · have hkeep : isNotSentinel (s, d, info) = true := by simp [isNotSentinel, hs]
      have hfilter : List.filter isNotSentinel ((s, d, info) :: rest)
          = (s, d, info) :: List.filter isNotSentinel rest := by
        simp [List.filter_cons, hkeep]
      rw [hfilter]
      simp only [ssiFlat]
      cases hstep : ssiProcessDay st s d info with
      | error e => simp
      | ok st1 =>
        simp only [except_bind_ok]
        rw [ih st1 (fun q hq hq2 => h q (List.mem_cons_of_mem _ hq) hq2)]
        have : sentCount ((s, d, info) :: rest) = sentCount rest := by
          simp only [sentCount, List.countP_cons]
          simp [hs]
        rw [this]

/-! ## Structural invariants of the cache database -/

/-- Well-formedness of the rowid bookkeeping: `scheduleindex` rowids are
unique and below the next-id counter, `schedule` rowids are below theirs. -/
structure DBWF (db : DB) : Prop where
  siIdsNodup : (db.scheduleindex.map (fun r => r.id)).Nodup
  siIdsLt : ∀ r ∈ db.scheduleindex, r.id < db.nextScheduleIndexId
  schedIdsLt : ∀ e ∈ db.schedule, e.id < db.nextScheduleId

/-- The rows of the index matching one (station, day-ordinal) key, in
table order. -/
def siFilter (si : List SchedIdxRow) (station_id : String) (sd : Option Int) :
    List SchedIdxRow :=
  si.filter (fun r => siMatches r station_id sd)

theorem siFind_eq_head (si : List SchedIdxRow) (station_id : String) (sd : Option Int) :
    siFind si station_id sd = (siFilter si station_id sd).head? := by
  rw [siFilter, List.filter_head?]
  rfl

theorem siMatches_elim {r : SchedIdxRow} {s : String} {sd : Option Int}
    (h : siMatches r s sd = true) :
    r.station_id = s ∧ ∃ n, r.startdate = some n ∧ sd = some n := by
  unfold siMatches at h
  rw [Bool.and_eq_true] at h
  obtain ⟨h1, h2⟩ := h
  refine ⟨by simpa using h1, ?_⟩
  cases hr : r.startdate with
  | none => rw [hr] at h2; cases sd <;> simp at h2
  | some a =>
    cases hsd : sd with
    | none => rw [hr, hsd] at h2; simp at h2
    | some b =>
      rw [hr, hsd] at h2
      simp only [beq_iff_eq] at h2
      exact ⟨a, rfl, by rw [h2]⟩

theorem siMatches_intro {r : SchedIdxRow} {s : String} {n : Int}
    (h1 : r.station_id = s) (h2 : r.startdate = some n) :
    siMatches r s (some n) = true := by
  unfold siMatches
  rw [h1, h2]
  simp

theorem siMatches_none {r : SchedIdxRow} {s : String} :
    siMatches r s none = false := by
  unfold siMatches
  cases h : r.startdate <;> simp

theorem siFind_matches {si : List SchedIdxRow} {s : String} {sd : Option Int}
    {res : SchedIdxRow} (h : siFind si s sd = some res) : siMatches res s sd = true := by
  unfold siFind at h
  have h2 := List.find?_some (p := fun r => siMatches r s sd) h
  simpa using h2

theorem siFind_mem {si : List SchedIdxRow} {s : String} {sd : Option Int}
    {res : SchedIdxRow} (h : siFind si s sd = some res) : res ∈ si := by
  unfold siFind at h
  exact List.mem_of_find?_eq_some h

/-- Filtering is unchanged by a map that fixes the satisfying elements and
does not create new ones. -/
theorem filter_map_invariant {α : Type} {l : List α} {f : α → α} {p : α → Bool}
    (h : ∀ x ∈ l, p (f x) = p x ∧ (p x = true → f x = x)) :
    (l.map f).filter p = l.filter p := by
  induction l with
  | nil => rfl
  | cons x rest ih =>
    have hx := h x (List.mem_cons_self _ _)
    have ihr := ih (fun y hy => h y (List.mem_cons_of_mem _ hy))
    simp only [List.map_cons, List.filter_cons, hx.1]
    cases hpx : p x with
    | true => simp [hx.2 hpx, ihr]
    | false => simp [ihr]

/-- The first match survives an in-place update that keeps it matching and
fixes every other element. -/
theorem find?_map_update {α : Type} {l : List α} {p : α → Bool} {res : α} {f : α → α}
    (hfind : l.find? p = some res)
    (hup : p (f res) = true)
    (hothers : ∀ x ∈ l, x ≠ res → f x = x) :
    (l.map f).find? p = some (f res) := by
  induction l with
  | nil => simp [List.find?] at hfind
  | cons x rest ih =>
    rw [List.find?_cons] at hfind
    cases hpx : p x with
    | true =>
      rw [hpx] at hfind
      simp only [] at hfind
      have hxres : x = res := by cases hfind; rfl
      subst hxres
      simp only [List.map_cons, List.find?_cons, hup]
    | false =>
      rw [hpx] at hfind
      simp only [] at hfind
      have hpres : p res = true := List.find?_some hfind
      have hxne : x ≠ res := fun hxe => by rw [hxe, hpres] at hpx; cases hpx
      have hfx : f x = x := hothers x (List.mem_cons_self _ _) hxne
      simp only [List.map_cons, List.find?_cons, hfx, hpx]
      exact ih hfind (fun y hy hyne => hothers y (List.mem_cons_of_mem _ hy) hyne)

/-! ## Preservation lemmas for one `store_schedule_index` iteration -/

theorem ssiProcessDay_fields {st st2 : SSIState} {s d : String} {info : DayInfo}
    (h : ssiProcessDay st s d info = .ok st2) :
    st2.db.stations = st.db.stations ∧
    st2.db.programdata = st.db.programdata ∧
    st2.db.nextScheduleId = st.db.nextScheduleId ∧
    st.db.nextScheduleIndexId ≤ st2.db.nextScheduleIndexId ∧
    st2.db.schedule.Sublist st.db.schedule := by
  obtain ⟨o, ho, hcase⟩ := ssiProcessDay_inv h
  rcases hcase with ⟨hs, rfl⟩ | ⟨hs, res, hf, hmd, rfl⟩
    | ⟨hs, res, lm, hf, hmd, hcv, rfl⟩ | ⟨hs, lm, hf, hcv, rfl⟩
  · exact ⟨rfl, rfl, rfl, Nat.le_refl _, List.Sublist.refl _⟩
  · exact ⟨rfl, rfl, rfl, Nat.le_refl _, List.Sublist.refl _⟩
  · exact ⟨rfl, rfl, rfl, Nat.le_refl _, List.filter_sublist _⟩
  · exact ⟨rfl, rfl, rfl, Nat.le_succ _, List.Sublist.refl _⟩

/-- Rows with the same rowid are identical under rowid uniqueness. -/
theorem si_id_inj {si : List SchedIdxRow}
    (hids : (si.map (fun r => r.id)).Nodup)
    {x y : SchedIdxRow} (hx : x ∈ si) (hy : y ∈ si) (hxy : x.id = y.id) : x = y :=
  List.inj_on_of_nodup_map hids hx hy hxy

theorem ssiProcessDay_wf {st st2 : SSIState} {s d : String} {info : DayInfo}
    (hwf : DBWF st.db) (h : ssiProcessDay st s d info = .ok st2) : DBWF st2.db := by
  obtain ⟨o, ho, hcase⟩ := ssiProcessDay_inv h
  rcases hcase with ⟨hs, rfl⟩ | ⟨hs, res, hf, hmd, rfl⟩
    | ⟨hs, res, lm, hf, hmd, hcv, rfl⟩ | ⟨hs, lm, hf, hcv, rfl⟩
  · exact hwf
  · exact hwf
  · refine ⟨?_, ?_, ?_⟩
    · have : ((updState st s d info o res lm).db.scheduleindex.map (fun r => r.id))
          = st.db.scheduleindex.map (fun r => r.id) := by
        simp only [updState, List.map_map]
        refine List.map_congr_left (fun r hr => ?_)
        by_cases hid : r.id = res.id <;> simp [hid]
      rw [this]
      exact hwf.siIdsNodup
    · intro r hr
      simp only [updState, List.mem_map] at hr
      obtain ⟨r0, hr0, rfl⟩ := hr
      have hlt := hwf.siIdsLt r0 hr0
      by_cases hid : r0.id = res.id
      · simpa [hid] using hlt
      · simpa [hid] using hlt
    · intro e he
      simp only [updState] at he
      exact hwf.schedIdsLt e (List.mem_of_mem_filter he)
  · refine ⟨?_, ?_, ?_⟩
    · simp only [insState, List.map_append, List.map_cons, List.map_nil]
      refine List.Nodup.append hwf.siIdsNodup (by simp) ?_
      intro a ha hmem
      simp only [List.mem_singleton] at hmem
      subst hmem
      simp only [List.mem_map] at ha
      obtain ⟨r0, hr0, hr0id⟩ := ha
      exact absurd hr0id (Nat.ne_of_lt (hwf.siIdsLt r0 hr0))
    · intro r hr
      simp only [insState, List.mem_append, List.mem_singleton] at hr
      rcases hr with hr | rfl
      · exact Nat.lt_succ_of_lt (hwf.siIdsLt r hr)
      · exact Nat.lt_succ_self _
    · intro e he
      simp only [insState] at he
      exact hwf.schedIdsLt e he

/-- One iteration only affects the index rows of its own (station, day)
key: filters at every other key are untouched. -/
theorem ssiProcessDay_filter_preserved {st st2 : SSIState} {s d : String} {info : DayInfo}
    (hids : (st.db.scheduleindex.map (fun r => r.id)).Nodup)
    (h : ssiProcessDay st s d info = .ok st2) (s0 : String) (sd0 : Option Int)
    (hne : ¬ (s0 = s ∧ sd0 = resolveDate d)) :
    siFilter st2.db.scheduleindex s0 sd0 = siFilter st.db.scheduleindex s0 sd0 := by
  obtain ⟨o, ho, hcase⟩ := ssiProcessDay_inv h
  have hres_o : resolveDate d = o := by simp [resolveDate, ho]
  rcases hcase with ⟨hs, rfl⟩ | ⟨hs, res, hf, hmd, rfl⟩
    | ⟨hs, res, lm, hf, hmd, hcv, rfl⟩ | ⟨hs, lm, hf, hcv, rfl⟩
  · rfl
  · rfl
  · -- update in place: the touched row matches only the step's key
    have hresmem : res ∈ st.db.scheduleindex := siFind_mem hf
    have hresmatch : siMatches res s o = true := siFind_matches hf
    obtain ⟨hstation, n, hstart, ho_n⟩ := siMatches_elim hresmatch
    simp only [updState, siFilter]
    refine filter_map_invariant (fun x hx => ?_)
    by_cases hid : x.id = res.id
    · have hx_res : x = res := si_id_inj hids hx hresmem hid
      subst hx_res
      constructor
      · -- neither the old nor the updated row matches (s0, sd0)
        have hold : siMatches x s0 sd0 = false := by
          by_cases hmatch : siMatches x s0 sd0 = true
          · obtain ⟨hst0, m, hsd_m, hsd0_m⟩ := siMatches_elim hmatch
            rw [hstart] at hsd_m
            cases hsd_m
            exact absurd ⟨by rw [← hst0, hstation], by rw [hsd0_m, hres_o, ho_n]⟩ hne
          · simpa using hmatch
        have hnew : siMatches
            { x with station_id := s, startdate := o, last_modified := lm, md5 := info.md5 }
            s0 sd0 = false := by
          by_cases hmatch : siMatches
              { x with station_id := s, startdate := o, last_modified := lm, md5 := info.md5 }
              s0 sd0 = true
          · obtain ⟨hst0, m, hsd_m, hsd0_m⟩ := siMatches_elim hmatch
            simp only [] at hst0 hsd_m
            exact absurd ⟨by rw [← hst0], by rw [hsd0_m, hres_o, ← hsd_m]⟩ hne
          · simpa using hmatch
        simp only [hid, if_pos]
        rw [hold, hnew]
      · intro hmatch
        have hold : siMatches x s0 sd0 = false := by
          by_cases hm2 : siMatches x s0 sd0 = true
          · obtain ⟨hst0, m, hsd_m, hsd0_m⟩ := siMatches_elim hm2
            rw [hstart] at hsd_m
            cases hsd_m
            exact absurd ⟨by rw [← hst0, hstation], by rw [hsd0_m, hres_o, ho_n]⟩ hne
          · simpa using hm2
        rw [hmatch] at hold
        cases hold
    · constructor
      · simp [hid]
      · intro _
        simp [hid]
  · -- insert at the end: the new row matches only the step's key
    simp only [insState, siFilter, List.filter_append]
    have hnew : siMatches
        { id := st.db.nextScheduleIndexId, station_id := s, startdate := o,
          last_modified := lm, md5 := info.md5 } s0 sd0 = false := by
      by_cases hmatch : siMatches
          { id := st.db.nextScheduleIndexId, station_id := s, startdate := o,
            last_modified := lm, md5 := info.md5 } s0 sd0 = true
      · obtain ⟨hst0, m, hsd_m, hsd0_m⟩ := siMatches_elim hmatch
        simp only [] at hst0 hsd_m
        exact absurd ⟨by rw [← hst0], by rw [hsd0_m, hres_o, ← hsd_m]⟩ hne
      · simpa using hmatch
    simp [hnew]

/-- After a successful non-sentinel iteration with a genuine day ordinal,
the step's key holds the fetched fingerprint. -/
theorem ssiProcessDay_postmatch {st st2 : SSIState} {s d : String} {info : DayInfo}
    (hids : (st.db.scheduleindex.map (fun r => r.id)).Nodup)
    (h : ssiProcessDay st s d info = .ok st2)
    (hsent : info.md5 ≠ SENTINEL_MD5) (hsome : ∃ n, resolveDate d = some n) :
    ∃ r2, siFind st2.db.scheduleindex s (resolveDate d) = some r2 ∧ r2.md5 = info.md5 := by
  obtain ⟨o, ho, hcase⟩ := ssiProcessDay_inv h
  have hres_o : resolveDate d = o := by simp [resolveDate, ho]
  obtain ⟨n, hn⟩ := hsome
  rcases hcase with ⟨hs, rfl⟩ | ⟨hs, res, hf, hmd, rfl⟩
    | ⟨hs, res, lm, hf, hmd, hcv, rfl⟩ | ⟨hs, lm, hf, hcv, rfl⟩
  · exact absurd hs hsent
  · exact ⟨res, by rw [hres_o]; exact hf, hmd⟩
  · have hresmem : res ∈ st.db.scheduleindex := siFind_mem hf
    have ho_n : o = some n := by rw [← hres_o, hn]
    refine ⟨{ res with station_id := s, startdate := o, last_modified := lm, md5 := info.md5 },
      ?_, rfl⟩
    rw [hres_o]
    have hupmatch : siMatches
        { res with station_id := s, startdate := o, last_modified := lm, md5 := info.md5 }
        s o = true := by
      rw [ho_n]
      exact siMatches_intro rfl rfl
    unfold siFind at hf ⊢
    simp only [updState]
    have hmain := find?_map_update (p := fun r => siMatches r s o)
      (f := fun r => if r.id = res.id then
          { r with station_id := s, startdate := o, last_modified := lm, md5 := info.md5 }
        else r)
      hf (by simpa using hupmatch)
      (fun x hx hxne => by
        have hxid : x.id ≠ res.id := fun hxe => hxne (si_id_inj hids hx hresmem hxe)
        simp [hxid])
    simpa using hmain
  · have ho_n : o = some n := by rw [← hres_o, hn]
    refine ⟨{ id := st.db.nextScheduleIndexId, station_id := s, startdate := o,
              last_modified := lm, md5 := info.md5 }, ?_, rfl⟩
    rw [hres_o]
    have hnone : List.find? (fun r => siMatches r s o) st.db.scheduleindex = none := hf
    have hnewmatch : siMatches
        { id := st.db.nextScheduleIndexId, station_id := s, startdate := o,
          last_modified := lm, md5 := info.md5 } s o = true := by
      rw [ho_n]
      exact siMatches_intro rfl rfl
    unfold siFind
    simp only [insState, List.find?_append, hnone, Option.none_or]
    simp [List.find?_cons, hnewmatch]

/-! ## Facts about a full `store_schedule_index` run -/

/-- The (station, day-ordinal) key of a flattened pair. -/
def pairKey (p : FlatPair) : String × Option Int := (p.1, resolveDate p.2.1)

theorem ssiFlat_facts : ∀ (pairs : List FlatPair) (st st2 : SSIState),
    DBWF st.db →
    (pairs.map pairKey).Nodup →
    ssiFlat st pairs = .ok st2 →
    DBWF st2.db ∧
    st2.db.stations = st.db.stations ∧
    st2.db.programdata = st.db.programdata ∧
    st2.db.nextScheduleId = st.db.nextScheduleId ∧
    st.db.nextScheduleIndexId ≤ st2.db.nextScheduleIndexId ∧
    st2.db.schedule.Sublist st.db.schedule ∧
    (∀ s0 sd0, (∀ p ∈ pairs, (s0, sd0) ≠ pairKey p) →
       siFilter st2.db.scheduleindex s0 sd0 = siFilter st.db.scheduleindex s0 sd0) ∧
    (∀ p ∈ pairs, isNotSentinel p = true → dateSomeB p.2.1 = true →
       pairMatchedB st2.db p = true) := by
  intro pairs
  induction pairs with
  | nil =>
    intro st st2 hwf hnd h
    simp only [ssiFlat] at h
    rw [← except_ok_inj h]
    exact ⟨hwf, rfl, rfl, rfl, Nat.le_refl _, List.Sublist.refl _,
      fun _ _ _ => rfl, fun p hp => absurd hp (List.not_mem_nil p)⟩
  | cons p rest ih =>
    intro st st2 hwf hnd h
    obtain ⟨s, d, info⟩ := p
    simp only [ssiFlat] at h
    cases hstep : ssiProcessDay st s d info with
    | error e => rw [hstep] at h; simp at h
    | ok st1 =>
      rw [hstep] at h
      simp only [except_bind_ok] at h
      rw [List.map_cons, List.nodup_cons] at hnd
      obtain ⟨hknotmem, hndrest⟩ := hnd
      have hwf1 : DBWF st1.db := ssiProcessDay_wf hwf hstep
      obtain ⟨hst, hpd, hnsched, hnsi, hsub⟩ := ssiProcessDay_fields hstep
      obtain ⟨hwf2, hst2, hpd2, hnsched2, hnsi2, hsub2, hpres2, hpm2⟩ :=
        ih st1 st2 hwf1 hndrest h
      refine ⟨hwf2, hst2.trans hst, hpd2.trans hpd, hnsched2.trans hnsched,
        Nat.le_trans hnsi hnsi2, hsub2.trans hsub, ?_, ?_⟩
      · intro s0 sd0 hkeys
        have h1 := ssiProcessDay_filter_preserved hwf.siIdsNodup hstep s0 sd0
          (fun ⟨he1, he2⟩ => hkeys _ (List.mem_cons_self _ _) (by
            simp only [pairKey]
            rw [he1, he2]))
        have h2 := hpres2 s0 sd0 (fun q hq => hkeys q (List.mem_cons_of_mem _ hq))
        rw [h2, h1]
      · intro q hq hqsent hqdate
        rcases List.mem_cons.mp hq with rfl | hqrest
        · -- the pair processed at this step stays matched through the rest
          have hsent : info.md5 ≠ SENTINEL_MD5 := by
            simpa [isNotSentinel] using hqsent
          have hsome : ∃ n, resolveDate d = some n := by
            obtain ⟨h1, n, h2⟩ := dateSome_resolve hqdate
            exact ⟨n, h2⟩
          obtain ⟨r2, hfind1, hmd1⟩ :=
            ssiProcessDay_postmatch hwf.siIdsNodup hstep hsent hsome
          have hpreskey := hpres2 s (resolveDate d) (fun q' hq' hkey => by
            exact hknotmem (by
              simp only [pairKey]
              rw [hkey]
              exact List.mem_map_of_mem pairKey hq'))
          unfold pairMatchedB
          rw [siFind_eq_head, hpreskey, ← siFind_eq_head, hfind1]
          simp [hmd1]
        · exact hpm2 q hqrest hqsent hqdate

/-! ## Facts about `store_schedules` -/

/-- The descriptive content of a schedule row (everything except the
generated rowid and the owning index id). -/
def entryContent (e : ScheduleRow) :
    String × String × Int × Int × Option String × Option String :=
  (e.station_id, e.program_id, e.airtime, e.duration, e.audioProperties, e.videoProperties)

/-- The airtime value stored for an entry whose conversion succeeded. -/
def airtimeVal (p : ProgramEntry) : Int :=
  match sdtime_to_unixtime p.airDateTime with
  | .ok v => v
  | .error _ => 0

/-- The content `store_schedules` derives from one fetched program entry. -/
def progContent (it : SchedItem) (p : ProgramEntry) :
    String × String × Int × Int × Option String × Option String :=
  (it.stationID, p.programID, airtimeVal p, p.duration,
   p.audioProperties.map calc_string_from_stringlist,
   p.videoProperties.map calc_string_from_stringlist)

/-- The owning `scheduleindex` id `store_schedules` resolves for an item
(read off the index table, which `store_schedules` never modifies). -/
def resolveIdx (db : DB) (it : SchedItem) : Option Nat :=
  (siFind db.scheduleindex it.stationID (resolveDate it.startDate)).map (fun r => r.id)

theorem ssProcessProgram_inv {db : DB} {upd : List String} {sid : String} {idx : Nat}
    {p : ProgramEntry} {db1 : DB} {upd1 : List String}
    (h : ssProcessProgram db upd sid idx p = .ok (db1, upd1)) :
    db1.stations = db.stations ∧ db1.scheduleindex = db.scheduleindex ∧
    db1.nextScheduleIndexId = db.nextScheduleIndexId ∧ db1.programdata = db.programdata ∧
    db1.schedule = db.schedule ++
      [{ id := db.nextScheduleId, station_id := sid, scheduleindex := idx,
         program_id := p.programID, airtime := airtimeVal p, duration := p.duration,
         audioProperties := p.audioProperties.map calc_string_from_stringlist,
         videoProperties := p.videoProperties.map calc_string_from_stringlist }] ∧
    db1.nextScheduleId = db.nextScheduleId + 1 := by
  cases hat : sdtime_to_unixtime p.airDateTime with
  | error e => simp [ssProcessProgram, hat] at h
  | ok v =>
    have hav : airtimeVal p = v := by simp [airtimeVal, hat]
    cases hmd : programdataMd5 { db with
        schedule := db.schedule ++
          [{ id := db.nextScheduleId, station_id := sid, scheduleindex := idx,
             program_id := p.programID, airtime := v, duration := p.duration,
             audioProperties := p.audioProperties.map calc_string_from_stringlist,
             videoProperties := p.videoProperties.map calc_string_from_stringlist }],
        nextScheduleId := db.nextScheduleId + 1 } p.programID with
    | error e =>
      simp [ssProcessProgram, hat, hmd] at h
    | ok pmd5 =>
      simp only [ssProcessProgram, hat, except_bind_ok, hmd] at h
      have hdb1 := congrArg Prod.fst (except_ok_inj h)
      simp only [] at hdb1
      rw [← hdb1, hav]
      exact ⟨rfl, rfl, rfl, rfl, rfl, rfl⟩

theorem ssPrograms_facts : ∀ (ps : List ProgramEntry) (db : DB) (upd : List String)
    (sid : String) (idx : Nat) (db2 : DB) (upd2 : List String),
    ssPrograms db upd sid idx ps = .ok (db2, upd2) →
    db2.stations = db.stations ∧ db2.scheduleindex = db.scheduleindex ∧
    db2.nextScheduleIndexId = db.nextScheduleIndexId ∧ db2.programdata = db.programdata ∧
    db.nextScheduleId ≤ db2.nextScheduleId ∧
    ∃ rows, db2.schedule = db.schedule ++ rows ∧
      (∀ e ∈ rows, e.scheduleindex = idx ∧ db.nextScheduleId ≤ e.id ∧
         e.id < db2.nextScheduleId) ∧
      rows.map entryContent = ps.map (fun p =>
        (sid, p.programID, airtimeVal p, p.duration,
         p.audioProperties.map calc_string_from_stringlist,
         p.videoProperties.map calc_string_from_stringlist)) := by
  intro ps
  induction ps with
  | nil =>
    intro db upd sid idx db2 upd2 h
    simp only [ssPrograms] at h
    have hpair := except_ok_inj h
    simp only [Prod.mk.injEq] at hpair
    obtain ⟨h1, h2⟩ := hpair
    subst h1
    exact ⟨rfl, rfl, rfl, rfl, Nat.le_refl _, [], by simp, by simp, by simp⟩
  | cons p rest ih =>
    intro db upd sid idx db2 upd2 h
    simp only [ssPrograms] at h
    cases hstep : ssProcessProgram db upd sid idx p with
    | error e => rw [hstep] at h; simp at h
    | ok pr =>
      obtain ⟨db1, upd1⟩ := pr
      rw [hstep] at h
      simp only [except_bind_ok] at h
      obtain ⟨hst, hsi, hnsi, hpd, hsched, hnext⟩ := ssProcessProgram_inv hstep
      obtain ⟨hst2, hsi2, hnsi2, hpd2, hle2, rows, hrows, hprops, hcontent⟩ :=
        ih db1 upd1 sid idx db2 upd2 h
      refine ⟨hst2.trans hst, hsi2.trans hsi, hnsi2.trans hnsi, hpd2.trans hpd,
        by omega, ?_⟩
      refine ⟨{ id := db.nextScheduleId, station_id := sid, scheduleindex := idx,
                program_id := p.programID, airtime := airtimeVal p, duration := p.duration,
                audioProperties := p.audioProperties.map calc_string_from_stringlist,
                videoProperties := p.videoProperties.map calc_string_from_stringlist }
          :: rows, ?_, ?_, ?_⟩
      · rw [hrows, hsched]
        simp
      · intro e he
        rcases List.mem_cons.mp he with rfl | hmem
        · refine ⟨rfl, Nat.le_refl _, ?_⟩
          show db.nextScheduleId < db2.nextScheduleId
          omega
        · obtain ⟨hidx, hge, hlt⟩ := hprops e hmem
          rw [hnext] at hge
          exact ⟨hidx, by omega, hlt⟩
      · simp only [List.map_cons]
        rw [hcontent]
        rfl

theorem ssItems_facts : ∀ (items : List SchedItem) (db : DB) (upd : List String)
    (db2 : DB) (upd2 : List String),
    ssItems db upd items = .ok (db2, upd2) →
    db2.stations = db.stations ∧ db2.scheduleindex = db.scheduleindex ∧
    db2.nextScheduleIndexId = db.nextScheduleIndexId ∧ db2.programdata = db.programdata ∧
    db.nextScheduleId ≤ db2.nextScheduleId ∧
    ∃ rows, db2.schedule = db.schedule ++ rows ∧
      (∀ e ∈ rows, db.nextScheduleId ≤ e.id ∧ e.id < db2.nextScheduleId) ∧
      ∀ idx, (rows.filter (fun e => e.scheduleindex == idx)).map entryContent
        = (items.filter (fun it => resolveIdx db it == some idx)).flatMap
            (fun it => it.programs.map (fun p => progContent it p)) := by
  intro items
  induction items with
  | nil =>
    intro db upd db2 upd2 h
    simp only [ssItems] at h
    have hpair := except_ok_inj h
    simp only [Prod.mk.injEq] at hpair
    obtain ⟨h1, h2⟩ := hpair
    subst h1
    exact ⟨rfl, rfl, rfl, rfl, Nat.le_refl _, [], by simp, by simp, by simp⟩
  | cons it rest ih =>
    intro db upd db2 upd2 h
    simp only [ssItems] at h
    cases hgsi : get_schedule_index db it.stationID it.startDate with
    | error e => rw [hgsi] at h; simp at h
    | ok idxOpt =>
      rw [hgsi] at h
      simp only [except_bind_ok] at h
      have hresolve : idxOpt = resolveIdx db it := by
        unfold get_schedule_index at hgsi
        cases hdt : date_to_int it.startDate with
        | error e => rw [hdt] at hgsi; simp at hgsi
        | ok o =>
          rw [hdt] at hgsi
          simp only [except_bind_ok] at hgsi
          have := except_ok_inj hgsi
          rw [← this]
          unfold resolveIdx
          rw [show resolveDate it.startDate = o from by simp [resolveDate, hdt]]
      cases idxOpt with
      | none => simp at h
      | some idx0 =>
        simp only [] at h
        cases hsp : ssPrograms db upd it.stationID idx0 it.programs with
        | error e => rw [hsp] at h; simp at h
        | ok pr =>
          obtain ⟨db1, upd1⟩ := pr
          rw [hsp] at h
          simp only [except_bind_ok] at h
          obtain ⟨hst, hsi, hnsi, hpd, hle, rows1, hrows1, hprops1, hcontent1⟩ :=
            ssPrograms_facts it.programs db upd it.stationID idx0 db1 upd1 hsp
          obtain ⟨hst2, hsi2, hnsi2, hpd2, hle2, rows2, hrows2, hprops2, hfilter2⟩ :=
            ih db1 upd1 db2 upd2 h
          refine ⟨hst2.trans hst, hsi2.trans hsi, hnsi2.trans hnsi, hpd2.trans hpd,
            by omega, rows1 ++ rows2, ?_, ?_, ?_⟩
          · rw [hrows2, hrows1]
            simp
          · intro e he
            rcases List.mem_append.mp he with hmem | hmem
            · obtain ⟨_, hge, hlt⟩ := hprops1 e hmem
              exact ⟨hge, by omega⟩
            · obtain ⟨hge, hlt⟩ := hprops2 e hmem
              exact ⟨by omega, hlt⟩
          · intro idx
            rw [List.filter_append, List.map_append]
            have hresolve1 : resolveIdx db1 it = resolveIdx db it := by
              unfold resolveIdx
              rw [hsi]
            have hfilterrest : ∀ it2, resolveIdx db1 it2 = resolveIdx db it2 := by
              intro it2
              unfold resolveIdx
              rw [hsi]
            have hR := hfilter2 idx
            have hRrw : (rest.filter (fun it2 => resolveIdx db1 it2 == some idx))
                = (rest.filter (fun it2 => resolveIdx db it2 == some idx)) := by
              refine List.filter_congr (fun it2 _ => ?_)
              rw [hfilterrest it2]
            rw [hRrw] at hR
            by_cases hidx : idx0 = idx
            · subst hidx
              have hall : rows1.filter (fun e => e.scheduleindex == idx0) = rows1 := by
                refine List.filter_eq_self.mpr (fun e he => ?_)
                simp [(hprops1 e he).1]
              have hconsfilter :
                  List.filter (fun it2 => resolveIdx db it2 == some idx0) (it :: rest)
                    = it :: List.filter (fun it2 => resolveIdx db it2 == some idx0) rest := by
                simp [List.filter_cons, ← hresolve]
              rw [hall, hR, hconsfilter, List.flatMap_cons, hcontent1]
              rfl
            · have hempty : rows1.filter (fun e => e.scheduleindex == idx) = [] := by
                refine List.filter_eq_nil_iff.mpr (fun e he => ?_)
                simp [(hprops1 e he).1, hidx]
              have hconsfilter :
                  List.filter (fun it2 => resolveIdx db it2 == some idx) (it :: rest)
                    = List.filter (fun it2 => resolveIdx db it2 == some idx) rest := by
                simp [List.filter_cons, ← hresolve, hidx]
              rw [hempty, hR, hconsfilter]
              simp

/-! ## Facts about `store_programs` -/

/-- Whether the program cache already stores this item's fingerprint under
this item's id (the compare-field check of the merge engine). -/
def progMatchedB (t : List Row) (item : ProgItem) : Bool :=
  match t.find? (fun r => selMatch r "program_id" (Value.str item.programID)) with
  | some r =>
    match dictGet r "md5" with
    | some v => v == Value.str item.md5
    | none => false
  | none => false

theorem program_fields_get_pid (item : ProgItem) (now : Int)
    (art : Option (List (String × AssetVal))) :
    dictGet (program_fields item now art) "program_id" = some (Value.str item.programID) := rfl

theorem program_fields_get_md5 (item : ProgItem) (now : Int)
    (art : Option (List (String × AssetVal))) :
    dictGet (program_fields item now art) "md5" = some (Value.str item.md5) := rfl

/-- The merge engine skips entirely when the stored fingerprint matches. -/
theorem insert_or_update_program_skip {t : List Row} {item : ProgItem} {now : Int}
    {art : Option (List (String × AssetVal))}
    (h : progMatchedB t item = true) :
    insert_or_update t (program_fields item now art) "program_id" (some "md5")
      = .ok (t, false) := by
  unfold progMatchedB at h
  cases hf : t.find? (fun r => selMatch r "program_id" (Value.str item.programID)) with
  | none => rw [hf] at h; simp at h
  | some r =>
    rw [hf] at h
    have h2 : (match dictGet r "md5" with
        | some v => v == Value.str item.md5
        | none => false) = true := h
    cases hgv : dictGet r "md5" with
    | none => rw [hgv] at h2; simp at h2
    | some v =>
      rw [hgv] at h2
      have hv : v = Value.str item.md5 := by simpa using h2
      simp only [insert_or_update, fieldsIndexVal, program_fields_get_pid,
        program_fields_get_md5, except_bind_ok, hf, rowGet, hgv, hv]
      simp

theorem spItems_fields : ∀ (items : List ProgItem) (db : DB) (now : Int)
    (art : Option (List (String × AssetVal))) (db2 : DB),
    spItems db now art items = .ok db2 →
    db2.stations = db.stations ∧ db2.scheduleindex = db.scheduleindex ∧
    db2.nextScheduleIndexId = db.nextScheduleIndexId ∧ db2.schedule = db.schedule ∧
    db2.nextScheduleId = db.nextScheduleId := by
  intro items
  induction items with
  | nil =>
    intro db now art db2 h
    simp only [spItems] at h
    rw [← except_ok_inj h]
    exact ⟨rfl, rfl, rfl, rfl, rfl⟩
  | cons item rest ih =>
    intro db now art db2 h
    simp only [spItems] at h
    cases hiu : insert_or_update db.programdata (program_fields item now art)
        "program_id" (some "md5") with
    | error e => rw [hiu] at h; simp at h
    | ok pr =>
      rw [hiu] at h
      simp only [except_bind_ok] at h
      obtain ⟨h1, h2, h3, h4, h5⟩ := ih _ _ _ _ h
      exact ⟨h1, h2, h3, h4, h5⟩

/-- Fingerprint idempotency of `store_programs`: when every item's stored
fingerprint matches, no row is inserted or updated at all (not even
`last_access`). -/
theorem spItems_identity : ∀ (items : List ProgItem) (db : DB) (now : Int)
    (art : Option (List (String × AssetVal))),
    (∀ item ∈ items, progMatchedB db.programdata item = true) →
    spItems db now art items = .ok db := by
  intro items
  induction items with
  | nil => intro db now art h; rfl
  | cons item rest ih =>
    intro db now art h
    simp only [spItems]
    rw [insert_or_update_program_skip (h item (List.mem_cons_self _ _))]
    simp only [except_bind_ok]
    have : ({ db with programdata := db.programdata } : DB) = db := rfl
    rw [this]
    exact ih db now art (fun q hq => h q (List.mem_cons_of_mem _ hq))

/-! ## Facts about one station chunk and the whole Stage B-D loop -/

/-- The station keys of a fingerprint response. -/
def stationsOf (data : SSIData) : List String := data.map Prod.fst

theorem flatPairs_station_mem {data : SSIData} {p : FlatPair} (h : p ∈ flatPairs data) :
    p.1 ∈ stationsOf data := by
  unfold flatPairs at h
  rw [List.mem_flatMap] at h
  obtain ⟨sd, hsd, hp⟩ := h
  rw [List.mem_map] at hp
  obtain ⟨q, hq, rfl⟩ := hp
  exact List.mem_map_of_mem Prod.fst hsd

theorem pairMatchedB_congr {db1 db2 : DB} (h : db2.scheduleindex = db1.scheduleindex)
    (p : FlatPair) : pairMatchedB db2 p = pairMatchedB db1 p := by
  unfold pairMatchedB siFind
  rw [h]

theorem pairMatchedB_of_filter_eq {db1 db2 : DB} {p : FlatPair}
    (h : siFilter db2.scheduleindex p.1 (resolveDate p.2.1)
       = siFilter db1.scheduleindex p.1 (resolveDate p.2.1)) :
    pairMatchedB db2 p = pairMatchedB db1 p := by
  unfold pairMatchedB
  rw [siFind_eq_head, siFind_eq_head, h]

theorem DBWF_of_eq {db1 db2 : DB} (hwf : DBWF db1)
    (h1 : db2.scheduleindex = db1.scheduleindex)
    (h2 : db2.nextScheduleIndexId = db1.nextScheduleIndexId)
    (h3 : db2.schedule = db1.schedule)
    (h4 : db2.nextScheduleId = db1.nextScheduleId) : DBWF db2 := by
  refine ⟨?_, ?_, ?_⟩
  · rw [h1]; exact hwf.siIdsNodup
  · rw [h1, h2]; exact hwf.siIdsLt
  · rw [h3, h4]; exact hwf.schedIdsLt

theorem ssItems_wf {items : List SchedItem} {db : DB} {upd : List String}
    {db2 : DB} {upd2 : List String}
    (hwf : DBWF db) (h : ssItems db upd items = .ok (db2, upd2)) : DBWF db2 := by
  obtain ⟨hst, hsi, hnsi, hpd, hle, rows, hrows, hprops, hfilter⟩ :=
    ssItems_facts items db upd db2 upd2 h
  refine ⟨?_, ?_, ?_⟩
  · rw [hsi]; exact hwf.siIdsNodup
  · rw [hsi, hnsi]; exact hwf.siIdsLt
  · intro e he
    rw [hrows] at he
    rcases List.mem_append.mp he with hmem | hmem
    · exact Nat.lt_of_lt_of_le (hwf.schedIdsLt e hmem) hle
    · exact (hprops e hmem).2

theorem stageDPrograms_fields : ∀ (chunks : List (List String)) (remote : Remote)
    (now : Int) (ai : List (String × AssetVal)) (db db2 : DB),
    stageDPrograms remote now ai db chunks = .ok db2 →
    db2.stations = db.stations ∧ db2.scheduleindex = db.scheduleindex ∧
    db2.nextScheduleIndexId = db.nextScheduleIndexId ∧ db2.schedule = db.schedule ∧
    db2.nextScheduleId = db.nextScheduleId := by
  intro chunks
  induction chunks with
  | nil =>
    intro remote now ai db db2 h
    simp only [stageDPrograms] at h
    rw [← except_ok_inj h]
    exact ⟨rfl, rfl, rfl, rfl, rfl⟩
  | cons c rest ih =>
    intro remote now ai db db2 h
    simp only [stageDPrograms] at h
    by_cases hlen : c.length > MAX_PROGRAM_IDS
    · rw [if_pos hlen] at h; simp at h
    · rw [if_neg hlen] at h
      cases hsp : store_programs db (remote.programs c) (some ai) now with
      | error e => rw [hsp] at h; simp at h
      | ok db1 =>
        rw [hsp] at h
        simp only [except_bind_ok] at h
        obtain ⟨h1, h2, h3, h4, h5⟩ := spItems_fields (remote.programs c) db now (some ai) db1 hsp
        obtain ⟨g1, g2, g3, g4, g5⟩ := ih remote now ai db1 db2 h
        exact ⟨g1.trans h1, g2.trans h2, g3.trans h3, g4.trans h4, g5.trans h5⟩

/-- Everything the Stage B-D loop guarantees about one processed chunk. -/
theorem processChunk_facts {remote : Remote} {now : Int} {db : DB} {c : List String} {db2 : DB}
    (hwf : DBWF db)
    (hnd : ((flatPairs (remote.md5s c)).map pairKey).Nodup)
    (h : processChunk remote now db c = .ok db2) :
    DBWF db2 ∧ db2.stations = db.stations ∧
    (∀ s0 sd0, (∀ p ∈ flatPairs (remote.md5s c), (s0, sd0) ≠ pairKey p) →
       siFilter db2.scheduleindex s0 sd0 = siFilter db.scheduleindex s0 sd0) ∧
    (∀ p ∈ flatPairs (remote.md5s c), isNotSentinel p = true → dateSomeB p.2.1 = true →
       pairMatchedB db2 p = true) ∧
    sentCount (flatPairs (remote.md5s c)) = 0 ∧
    ¬ (c.length > MAX_STATIONS_IDS) := by
  unfold processChunk at h
  by_cases hlen : c.length > MAX_STATIONS_IDS
  · rw [if_pos hlen] at h; simp at h
  · rw [if_neg hlen] at h
    simp only [] at h
    cases hssi : store_schedule_index db (remote.md5s c) with
    | error e => rw [hssi] at h; simp at h
    | ok st =>
      rw [hssi] at h
      simp only [except_bind_ok] at h
      by_cases hcnt : st.count_invalid ≠ 0
      · rw [if_pos hcnt] at h; simp at h
      · rw [if_neg hcnt] at h
        have hcnt0 : st.count_invalid = 0 := by omega
        have hflat := hssi
        rw [store_schedule_index_eq_flat] at hflat
        have hsent0 : sentCount (flatPairs (remote.md5s c)) = 0 := by
          have := ssiFlat_count (flatPairs (remote.md5s c)) _ _ hflat
          simp only [] at this
          omega
        obtain ⟨hwf1, hst1, hpd1, hnsched1, hnsi1, hsub1, hpres1, hpm1⟩ :=
          ssiFlat_facts (flatPairs (remote.md5s c)) _ _ hwf hnd hflat
        by_cases hns : st.new_schedules.length > 0
        · rw [if_pos hns] at h
          by_cases h500 : st.new_schedules.length > 500
          · rw [if_pos h500] at h; simp at h
          · rw [if_neg h500] at h
            cases hss : store_schedules st.db (remote.schedules st.new_schedules) with
            | error e => rw [hss] at h; simp at h
            | ok pr =>
              obtain ⟨dbS, open_programs⟩ := pr
              rw [hss] at h
              simp only [except_bind_ok] at h
              obtain ⟨sst, ssi, snsi, spd, sle, rows, hrows, hprops, hfilter⟩ :=
                ssItems_facts _ _ _ _ _ hss
              have hwfS : DBWF dbS := ssItems_wf hwf1 hss
              by_cases hop : open_programs.length > 0
              · rw [if_pos hop] at h
                cases hart : proc_program_artwork_info
                    ((chunker (calc_short_program_ids open_programs) MAX_ARTWORK_IDS).foldl
                      (fun acc c2 => acc ++ remote.artwork c2) []) with
                | error e => rw [hart] at h; simp at h
                | ok ai =>
                  rw [hart] at h
                  simp only [except_bind_ok] at h
                  obtain ⟨d1, d2, d3, d4, d5⟩ := stageDPrograms_fields _ _ _ _ _ _ h
                  refine ⟨DBWF_of_eq hwfS d2 d3 d4 d5, ?_, ?_, ?_, hsent0, hlen⟩
                  · rw [d1, sst, hst1]
                  · intro s0 sd0 hkeys
                    have := hpres1 s0 sd0 hkeys
                    simp only [] at this
                    unfold siFilter at this ⊢
                    rw [d2, ssi, this]
                  · intro p hp hp1 hp2
                    have hm1 := hpm1 p hp hp1 hp2
                    rw [pairMatchedB_congr d2, pairMatchedB_congr ssi]
                    exact hm1
              · rw [if_neg hop] at h
                have hdbeq : dbS = db2 := except_ok_inj h
                subst hdbeq
                refine ⟨hwfS, ?_, ?_, ?_, hsent0, hlen⟩
                · rw [sst, hst1]
                · intro s0 sd0 hkeys
                  have := hpres1 s0 sd0 hkeys
                  simp only [] at this
                  unfold siFilter at this ⊢
                  rw [ssi, this]
                · intro p hp hp1 hp2
                  have hm1 := hpm1 p hp hp1 hp2
                  rw [pairMatchedB_congr ssi]
                  exact hm1
        · rw [if_neg hns] at h
          have hdbeq : st.db = db2 := except_ok_inj h
          subst hdbeq
          refine ⟨hwf1, hst1, ?_, ?_, hsent0, hlen⟩
          · intro s0 sd0 hkeys
            have := hpres1 s0 sd0 hkeys
            simpa using this
          · intro p hp hp1 hp2
            exact hpm1 p hp hp1 hp2

theorem pairwise_imp_mem {α : Type} {R S : α → α → Prop} :
    ∀ {l : List α}, (∀ a ∈ l, ∀ b ∈ l, R a b → S a b) → l.Pairwise R → l.Pairwise S := by
  intro l
  induction l with
  | nil => intro _ _; exact List.Pairwise.nil
  | cons a rest ih =>
    intro h hp
    rw [List.pairwise_cons] at hp ⊢
    refine ⟨fun b hb => h a (List.mem_cons_self _ _) b (List.mem_cons_of_mem _ hb) (hp.1 b hb),
      ih (fun x hx y hy => h x (List.mem_cons_of_mem _ hx) y (List.mem_cons_of_mem _ hy)) hp.2⟩

theorem sentCount_zero_no_sentinel {pairs : List FlatPair}
    (h : sentCount pairs = 0) : ∀ p ∈ pairs, isNotSentinel p = true := by
  intro p hp
  unfold sentCount at h
  rw [List.countP_eq_zero] at h
  have := h p hp
  simp only [isNotSentinel, bne]
  cases hb : p.2.2.md5 == SENTINEL_MD5
  · rfl
  · exact absurd hb this

theorem dateSomeB_noErr {d : String} (h : dateSomeB d = true) : dateNoErrB d = true := by
  unfold dateSomeB at h
  unfold dateNoErrB
  cases hd : date_to_int d with
  | ok o => rfl
  | error e => rw [hd] at h; simp at h

/-- After a successful pass over all chunks, every response key holds its
fetched fingerprint, provided response keys are unique within a chunk and
response stations do not repeat across chunks. -/
theorem stageChunks_facts : ∀ (chunks : List (List String)) (remote : Remote) (now : Int)
    (db db2 : DB),
    DBWF db →
    (∀ c ∈ chunks, ((flatPairs (remote.md5s c)).map pairKey).Nodup) →
    chunks.Pairwise (fun c1 c2 =>
      ∀ s ∈ stationsOf (remote.md5s c1), s ∉ stationsOf (remote.md5s c2)) →
    stageChunks remote now db chunks = .ok db2 →
    DBWF db2 ∧ db2.stations = db.stations ∧
    (∀ s0 sd0, (∀ c ∈ chunks, ∀ p ∈ flatPairs (remote.md5s c), (s0, sd0) ≠ pairKey p) →
       siFilter db2.scheduleindex s0 sd0 = siFilter db.scheduleindex s0 sd0) ∧
    (∀ c ∈ chunks, ∀ p ∈ flatPairs (remote.md5s c),
       isNotSentinel p = true → dateSomeB p.2.1 = true → pairMatchedB db2 p = true) ∧
    (∀ c ∈ chunks, sentCount (flatPairs (remote.md5s c)) = 0) ∧
    (∀ c ∈ chunks, ¬ (c.length > MAX_STATIONS_IDS)) := by
  intro chunks
  induction chunks with
  | nil =>
    intro remote now db db2 hwf hnd hdisj h
    simp only [stageChunks] at h
    rw [← except_ok_inj h]
    exact ⟨hwf, rfl, fun _ _ _ => rfl, fun c hc => absurd hc (List.not_mem_nil c),
      fun c hc => absurd hc (List.not_mem_nil c),
      fun c hc => absurd hc (List.not_mem_nil c)⟩
  | cons c rest ih =>
    intro remote now db db2 hwf hnd hdisj h
    simp only [stageChunks] at h
    cases hpc : processChunk remote now db c with
    | error e => rw [hpc] at h; simp at h
    | ok db1 =>
      rw [hpc] at h
      simp only [except_bind_ok] at h
      rw [List.pairwise_cons] at hdisj
      obtain ⟨hdisj1, hdisjrest⟩ := hdisj
      obtain ⟨hwf1, hst1, hpres1, hpm1, hsent1, hlen1⟩ :=
        processChunk_facts hwf (hnd c (List.mem_cons_self _ _)) hpc
      obtain ⟨hwf2, hst2, hpres2, hpm2, hsent2, hlen2⟩ :=
        ih remote now db1 db2 hwf1 (fun c2 hc2 => hnd c2 (List.mem_cons_of_mem _ hc2))
          hdisjrest h
      refine ⟨hwf2, hst2.trans hst1, ?_, ?_, ?_, ?_⟩
      · intro s0 sd0 hkeys
        have h2 := hpres2 s0 sd0
          (fun c2 hc2 p hp => hkeys c2 (List.mem_cons_of_mem _ hc2) p hp)
        have h1 := hpres1 s0 sd0 (fun p hp => hkeys c (List.mem_cons_self _ _) p hp)
        rw [h2, h1]
      · intro c2 hc2 p hp hp1 hp2
        rcases List.mem_cons.mp hc2 with rfl | hc2rest
        · -- a key of the first chunk, preserved through the rest
          have hm1 := hpm1 p hp hp1 hp2
          have hstmem : p.1 ∈ stationsOf (remote.md5s c2) := flatPairs_station_mem hp
          have hfilter := hpres2 p.1 (resolveDate p.2.1) (fun c3 hc3 q hq hkeyeq => by
            have hnotmem := hdisj1 c3 hc3 p.1 hstmem
            have hq1 : q.1 ∈ stationsOf (remote.md5s c3) := flatPairs_station_mem hq
            have hfst : p.1 = q.1 := by
              have h2 := congrArg (fun z : String × Option Int => z.1) hkeyeq
              simpa [pairKey] using h2
            rw [hfst] at hnotmem
            exact hnotmem hq1)
          rw [pairMatchedB_of_filter_eq hfilter]
          exact hm1
        · exact hpm2 c2 hc2rest p hp hp1 hp2
      · intro c2 hc2
        rcases List.mem_cons.mp hc2 with rfl | hc2rest
        · exact hsent1
        · exact hsent2 c2 hc2rest
      · intro c2 hc2
        rcases List.mem_cons.mp hc2 with rfl | hc2rest
        · exact hlen1
        · exact hlen2 c2 hc2rest

/-- A chunk in which every pair is a sentinel-free match is a no-op for
the whole chunk body. -/
theorem processChunk_identity {remote : Remote} {now : Int} {db : DB} {c : List String}
    (hok : ∀ p ∈ flatPairs (remote.md5s c), pairOkB db p = true)
    (hsent : sentCount (flatPairs (remote.md5s c)) = 0)
    (hlen : ¬ (c.length > MAX_STATIONS_IDS)) :
    processChunk remote now db c = .ok db := by
  have hssi : store_schedule_index db (remote.md5s c)
      = .ok { db := db, new_schedules := [], count_invalid := 0 } := by
    rw [store_schedule_index_eq_flat]
    have hid := ssiFlat_identity (flatPairs (remote.md5s c)) db [] 0 hok
    rw [hsent] at hid
    simpa using hid
  simp [processChunk, hlen, hssi]

/-- Running the chunk loop a second time against the same remote responses
is a global no-op once every key already matches. -/
theorem stageChunks_run2 : ∀ (chunks : List (List String)) (remote : Remote) (now2 : Int)
    (db1 : DB),
    (∀ c ∈ chunks, ∀ p ∈ flatPairs (remote.md5s c), pairOkB db1 p = true) →
    (∀ c ∈ chunks, sentCount (flatPairs (remote.md5s c)) = 0) →
    (∀ c ∈ chunks, ¬ (c.length > MAX_STATIONS_IDS)) →
    stageChunks remote now2 db1 chunks = .ok db1 := by
  intro chunks
  induction chunks with
  | nil => intro remote now2 db1 _ _ _; rfl
  | cons c rest ih =>
    intro remote now2 db1 hok hsent hlen
    simp only [stageChunks]
    rw [processChunk_identity (hok c (List.mem_cons_self _ _))
      (hsent c (List.mem_cons_self _ _)) (hlen c (List.mem_cons_self _ _))]
    simp only [except_bind_ok]
    exact ih remote now2 db1 (fun c2 hc2 => hok c2 (List.mem_cons_of_mem _ hc2))
      (fun c2 hc2 => hsent c2 (List.mem_cons_of_mem _ hc2))
      (fun c2 hc2 => hlen c2 (List.mem_cons_of_mem _ hc2))

/-! ## Claim C10: `chunker` splits without loss, duplication or reorder -/

/-- C10: for every list and positive chunk size, concatenating the chunks
produced by `chunker` in order yields exactly the original list, every
chunk except possibly the last has length equal to the chunk size, and no
chunk is longer than the chunk size. -/
theorem claim_C10 {α : Type} (seq : List α) (size : Nat) (h : 0 < size) :
    (chunker seq size).flatten = seq ∧
    (∀ c ∈ (chunker seq size).dropLast, c.length = size) ∧
    (∀ c ∈ chunker seq size, c.length ≤ size) :=
  ⟨chunker_flatten seq size h, chunker_dropLast_length seq size h, chunker_length_le seq size⟩

/-- Witness for C10 at a concrete list and chunk size. -/
theorem claim_C10_witness :
    0 < 2 ∧ (chunker [10, 20, 30, 40, 50] 2).flatten = [10, 20, 30, 40, 50] :=
  ⟨by decide, (claim_C10 [10, 20, 30, 40, 50] 2 (by decide)).1⟩

/-! ## Claim C4: the merge-engine four-step contract -/

/-- C4: `insert_or_update` follows the four-step contract — no stored row
matching the identity value means insert-all-fields and report written;
a stored row with no compare field means update-all-fields and report
written; a stored row whose compare-field value equals the supplied value
means no write and report unchanged; otherwise update all fields and
report written. -/
theorem claim_C4 (table : List Row) (fields : List (String × Value)) (sel cf : String)
    (sv cv : Value) (r : Row)
    (hsel : dictGet fields sel = some sv) :
    (table.find? (fun row => selMatch row sel sv) = none →
       insert_or_update table fields sel none = .ok (table ++ [(fields : Row)], true) ∧
       (dictGet fields cf = some cv →
         insert_or_update table fields sel (some cf)
           = .ok (table ++ [(fields : Row)], true))) ∧
    (table.find? (fun row => selMatch row sel sv) = some r →
       insert_or_update table fields sel none
         = .ok (updateMatching table fields sel sv, true)) ∧
    (table.find? (fun row => selMatch row sel sv) = some r →
       dictGet fields cf = some cv → rowGet r cf = .ok cv →
       insert_or_update table fields sel (some cf) = .ok (table, false)) ∧
    (∀ ov, table.find? (fun row => selMatch row sel sv) = some r →
       dictGet fields cf = some cv → rowGet r cf = .ok ov → ov ≠ cv →
       insert_or_update table fields sel (some cf)
         = .ok (updateMatching table fields sel sv, true)) := by
  refine ⟨?_, ?_, ?_, ?_⟩
  · intro hfind
    constructor
    · simp [insert_or_update, fieldsIndexVal, hsel, hfind]
    · intro hcf
      simp [insert_or_update, fieldsIndexVal, hsel, hcf, hfind]
  · intro hfind
    simp [insert_or_update, fieldsIndexVal, hsel, hfind]
  · intro hfind hcf hold
    simp [insert_or_update, fieldsIndexVal, hsel, hcf, hfind, hold]
  · intro ov hfind hcf hold hne
    have hbeq : (ov == cv) = false := by
      cases hb : ov == cv
      · rfl
      · exact absurd (by simpa using hb) hne
    simp only [insert_or_update, fieldsIndexVal, hsel, hcf, hfind, hold, hbeq,
      except_bind_ok]
    simp [hbeq]

/-- Witness for C4 exercising all four branches of the contract at
concrete tables and field lists. -/
theorem claim_C4_witness :
    (insert_or_update [] [("k", Value.str "a"), ("m", Value.str "1")] "k" none
       = .ok ([[("k", Value.str "a"), ("m", Value.str "1")]], true)) ∧
    (insert_or_update [[("k", Value.str "a"), ("m", Value.str "0")]]
        [("k", Value.str "a"), ("m", Value.str "1")] "k" none
       = .ok (updateMatching [[("k", Value.str "a"), ("m", Value.str "0")]]
           [("k", Value.str "a"), ("m", Value.str "1")] "k" (Value.str "a"), true)) ∧
    (insert_or_update [[("k", Value.str "a"), ("m", Value.str "1")]]
        [("k", Value.str "a"), ("m", Value.str "1")] "k" (some "m")
       = .ok ([[("k", Value.str "a"), ("m", Value.str "1")]], false)) ∧
    (insert_or_update [[("k", Value.str "a"), ("m", Value.str "0")]]
        [("k", Value.str "a"), ("m", Value.str "1")] "k" (some "m")
       = .ok (updateMatching [[("k", Value.str "a"), ("m", Value.str "0")]]
           [("k", Value.str "a"), ("m", Value.str "1")] "k" (Value.str "a"), true)) :=
  ⟨((claim_C4 [] [("k", Value.str "a"), ("m", Value.str "1")] "k" "m"
      (Value.str "a") (Value.str "1") [] (by decide)).1 (by decide)).1,
   (claim_C4 [[("k", Value.str "a"), ("m", Value.str "0")]]
      [("k", Value.str "a"), ("m", Value.str "1")] "k" "m"
      (Value.str "a") (Value.str "1") [("k", Value.str "a"), ("m", Value.str "0")]
      (by decide)).2.1 (by decide),
   (claim_C4 [[("k", Value.str "a"), ("m", Value.str "1")]]
      [("k", Value.str "a"), ("m", Value.str "1")] "k" "m"
      (Value.str "a") (Value.str "1") [("k", Value.str "a"), ("m", Value.str "1")]
      (by decide)).2.2.1 (by decide) (by decide) (by decide),
   (claim_C4 [[("k", Value.str "a"), ("m", Value.str "0")]]
      [("k", Value.str "a"), ("m", Value.str "1")] "k" "m"
      (Value.str "a") (Value.str "1") [("k", Value.str "a"), ("m", Value.str "0")]
      (by decide)).2.2.2 (Value.str "0") (by decide) (by decide) (by decide) (by decide)⟩

/-! ## Claim C8: artwork resolver selection and determinism -/

/-- The asset mapping of the specification's artwork example. -/
def c8Assets : Assets :=
  [("Cast Ensemble", [("Lg", [("u1", none, none, none)])]),
   ("Iconic", [("Md", [("u2", none, none, none)]), ("Sm", [("u3", none, none, none)])])]

/-- C8: on the asset mapping of the example the resolver picks category
`Iconic`, then size `Md`, and returns `u2`; and the resolver is a
deterministic function of its input, so identical input ordering always
reproduces the identical selection. -/
theorem claim_C8 :
    best_match (c8Assets.map Prod.fst) categoryPreference = .ok (some "Iconic") ∧
    best_match ["Md", "Sm"] sizePreference = .ok (some "Md") ∧
    selectBestAsset c8Assets = .ok ("u2", none, none, none) ∧
    (∀ d1 d2 : List ArtEntry, d1 = d2 →
       proc_program_artwork_info d1 = proc_program_artwork_info d2) :=
  ⟨by decide, by decide, by decide, fun d1 d2 h => congrArg proc_program_artwork_info h⟩

/-- Witness for C8's determinism conjunct at a concrete payload. -/
theorem claim_C8_witness :
    ([] : List ArtEntry) = [] ∧
    proc_program_artwork_info [] = proc_program_artwork_info [] :=
  ⟨rfl, claim_C8.2.2.2 [] [] rfl⟩

/-! ## Claim C9: the empty-assets guard never fires, so the resolver
raises `IndexError` on all-skipped data lists -/

theorem buildAssetsStep_skip {assets : Assets} {item : ArtItem}
    (h : item.category = none ∨ item.size = none) :
    buildAssetsStep assets item = assets := by
  unfold buildAssetsStep
  rcases h with h | h
  · rw [h]
  · rw [h]
    cases item.category <;> rfl

theorem buildAssets_empty {items : List ArtItem}
    (h : ∀ it ∈ items, it.category = none ∨ it.size = none) :
    buildAssets items = [] := by
  unfold buildAssets
  have haux : ∀ (l : List ArtItem) (acc : Assets),
      (∀ it ∈ l, it.category = none ∨ it.size = none) →
      l.foldl buildAssetsStep acc = acc := by
    intro l
    induction l with
    | nil => intro acc _; rfl
    | cons it rest ih =>
      intro acc hall
      rw [List.foldl_cons, buildAssetsStep_skip (hall it (List.mem_cons_self _ _))]
      exact ih acc (fun q hq => hall q (List.mem_cons_of_mem _ hq))
  exact haux items [] h

theorem selectBestAsset_nil : selectBestAsset [] = .error .indexError := rfl

theorem papiLoop_append (l1 l2 : List ArtEntry) : ∀ res,
    papiLoop res (l1 ++ l2) = (papiLoop res l1) >>= (fun r => papiLoop r l2) := by
  induction l1 with
  | nil => intro res; simp [papiLoop]
  | cons e rest ih =>
    intro res
    show papiLoop res (e :: (rest ++ l2)) = _
    simp only [papiLoop]
    cases hd : e.data with
    | none => simp [ih]
    | some dat =>
      by_cases hempty : dictKeysEqEmptyList ((buildAssets dat).map Prod.fst)
      · simp [hempty, ih]
      · simp only [hempty, if_neg]
        cases hsel : selectBestAsset (buildAssets dat) with
        | error er => simp
        | ok v => simp [ih]

/-- C9: an artwork payload entry whose `data` is a non-empty list in which
every item lacks a category or a size makes `proc_program_artwork_info`
raise `IndexError` instead of skipping the entry: the `== []` guards
compare dict-key views against a list (never true), so `best_match` falls
through to indexing an empty collection. -/
theorem claim_C9 (pre post : List ArtEntry) (e : ArtEntry) (items : List ArtItem)
    (hdata : e.data = some items)
    (hmiss : ∀ it ∈ items, it.category = none ∨ it.size = none)
    (hpre : ∃ res, proc_program_artwork_info pre = .ok res) :
    proc_program_artwork_info (pre ++ e :: post) = .error .indexError := by
  obtain ⟨res0, hres0⟩ := hpre
  unfold proc_program_artwork_info at hres0 ⊢
  rw [papiLoop_append, hres0]
  simp only [except_bind_ok, papiLoop, hdata]
  rw [buildAssets_empty hmiss]
  simp [dictKeysEqEmptyList, selectBestAsset_nil]

/-! ## Claim C3: sentinel fingerprints are counted, never persisted -/

/-- The fingerprint response with its sentinel days removed. -/
def dataFilterNonSent (data : SSIData) : SSIData :=
  data.map (fun sd => (sd.1, sd.2.filter (fun p => p.2.md5 != SENTINEL_MD5)))

/-- Whether every sentinel day's date string converts without raising
(`date_to_int` runs before the sentinel check). -/
def sentinelDatesOkB (data : SSIData) : Bool :=
  (flatPairs data).all (fun p => isNotSentinel p || dateNoErrB p.2.1)

theorem flatPairs_filterNS (data : SSIData) :
    flatPairs (dataFilterNonSent data) = (flatPairs data).filter isNotSentinel := by
  induction data with
  | nil => rfl
  | cons sd rest ih =>
    obtain ⟨sid, days⟩ := sd
    have h1 : flatPairs (dataFilterNonSent ((sid, days) :: rest))
        = ((days.filter (fun p => p.2.md5 != SENTINEL_MD5)).map (fun p => (sid, p.1, p.2)))
          ++ flatPairs (dataFilterNonSent rest) := by
      simp [dataFilterNonSent, flatPairs]
    have h2 : flatPairs ((sid, days) :: rest)
        = (days.map (fun p => (sid, p.1, p.2))) ++ flatPairs rest := by
      simp [flatPairs]
    rw [h1, h2, List.filter_append, ih]
    congr 1
    rw [List.filter_map]
    rfl

/-- C3: a (station, day) pair fetched with the reserved sentinel
fingerprint is not persisted at all — the run result equals the run on
the sentinel-free response — and the returned invalid-day counter equals
the number of sentinel occurrences in the input. -/
theorem claim_C3 (db : DB) (data : SSIData) (hd : sentinelDatesOkB data = true) :
    store_schedule_index db data
      = (store_schedule_index db (dataFilterNonSent data)).map
          (fun st => { st with
            count_invalid := st.count_invalid + sentCount (flatPairs data) }) ∧
    (∀ st, store_schedule_index db data = .ok st →
       st.count_invalid = sentCount (flatPairs data)) := by
  constructor
  · rw [store_schedule_index_eq_flat, store_schedule_index_eq_flat, flatPairs_filterNS]
    refine ssiFlat_drop_sentinels (flatPairs data) _ (fun p hp hps => ?_)
    unfold sentinelDatesOkB at hd
    rw [List.all_eq_true] at hd
    have := hd p hp
    rw [hps] at this
    simpa using this
  · intro st hst
    rw [store_schedule_index_eq_flat] at hst
    have := ssiFlat_count (flatPairs data) _ _ hst
    simpa using this

/-- Witness for C3: one station with one sentinel day and one real day. -/
def c3Data : SSIData :=
  [("s1", [("2015-03-02", { md5 := "CAFEDEADBEEFCAFEDEADBE",
                            lastModified := some "2015-03-02T15:54:58Z" }),
           ("2015-03-03", { md5 := "SpVOfFY4a8gQrrZjOqyK8g",
                            lastModified := some "2015-03-02T15:54:58Z" })])]

def c3Db : DB :=
  { stations := [], scheduleindex := [], nextScheduleIndexId := 0,
    schedule := [], nextScheduleId := 0, programdata := [] }

theorem claim_C3_witness :
    sentinelDatesOkB c3Data = true ∧
    store_schedule_index c3Db c3Data
      = (store_schedule_index c3Db (dataFilterNonSent c3Data)).map
          (fun st => { st with
            count_invalid := st.count_invalid + sentCount (flatPairs c3Data) }) :=
  ⟨by decide, (claim_C3 c3Db c3Data (by decide)).1⟩

/-! ## Claim C5: the unhealthy-status abort path -/

/-- C5: when the remote status check reports the service unhealthy (after
the waituntil gate, token and expiry checks pass), the run ends before
Stage B — but through the top-level exception handler, because line 1619
evaluates `int(time.time)` and raises `TypeError`; consequently the
retry-not-before timestamp is NOT persisted (the stored `waituntil`
survives unchanged) and the next invocation is not delayed.  This refutes
the claim's persistence conjunct. -/
theorem claim_C5 (env : MainEnv)
    (hgate : ¬ (env.waituntilStored ≠ 0 ∧ env.waituntilStored > env.now))
    (htoken : env.tokenOk = true) (hexp : env.expired = false)
    (hstatus : env.statusOk = false) :
    int_of_time_function = .error .typeError ∧
    sdjsongrab_main env = (.crashExit, env.waituntilStored) ∧
    sdjsongrab_main env ≠ (.statusAbort, env.now + 3600) := by
  refine ⟨rfl, ?_, ?_⟩
  · simp [sdjsongrab_main, hgate, htoken, hexp, hstatus, int_of_time_function]
  · simp [sdjsongrab_main, hgate, htoken, hexp, hstatus, int_of_time_function]

/-- Witness for C5 at a concrete environment. -/
theorem claim_C5_witness :
    int_of_time_function = .error .typeError ∧
    sdjsongrab_main { waituntilStored := 0, now := 1000, dbVersion := 0,
                      tokenOk := true, expired := false, statusOk := false }
      = (.crashExit, 0) :=
  ⟨(claim_C5 { waituntilStored := 0, now := 1000, dbVersion := 0,
               tokenOk := true, expired := false, statusOk := false }
      (by decide) (by decide) (by decide) (by decide)).1,
   (claim_C5 { waituntilStored := 0, now := 1000, dbVersion := 0,
               tokenOk := true, expired := false, statusOk := false }
      (by decide) (by decide) (by decide) (by decide)).2.1⟩

/-! ## Claim C6: schema-upgrade failure is reported but ignored -/

/-- C6: with a stored schema version below the required one,
`upgrade_database_schema` does report failure both when the plan is
missing and when a needed script file is missing — but `__main__` line
1600 discards the result, so the run proceeds to the token fetch, the
status check and the cache stages instead of exiting.  This refutes the
claim's run-exits conjunct. -/
theorem claim_C6 :
    (upgrade_database_schema (-1) 0 none (fun _ => false)).1 = false ∧
    (upgrade_database_schema (-1) 0 (some [(0, "sql/upgrade0.sql")])
        (fun _ => false)).1 = false ∧
    sdjsongrab_main { waituntilStored := 0, now := 1000, dbVersion := -1,
                      tokenOk := true, expired := false, statusOk := true }
      = (.proceed, 0) := by
  refine ⟨by decide, by decide, by decide⟩

/-! ## Claim C7: the 500-station assertion in `get_schedules` is reachable -/

theorem chunker_single {α : Type} (l : List α) (size : Nat) (h0 : l ≠ [])
    (hle : l.length ≤ size) : chunker l size = [l] := by
  have hpos : 0 < l.length := List.length_pos.mpr h0
  have hsz : 0 < size := Nat.lt_of_lt_of_le hpos hle
  unfold chunker
  rw [pyRange_eq_cons 0 l.length size ⟨hsz, hpos⟩,
      pyRange_eq_nil (0 + size) l.length size (by omega)]
  simp [List.take_of_length_le hle]

theorem dictAppendList_fresh (l : List (String × List String)) (k v : String)
    (h : ∀ kv ∈ l, kv.1 ≠ k) :
    dictAppendList l k v = l ++ [(k, [v])] := by
  induction l with
  | nil => rfl
  | cons kv rest ih =>
    obtain ⟨k0, vs⟩ := kv
    have hk0 : k0 ≠ k := h (k0, vs) (List.mem_cons_self _ _)
    simp only [dictAppendList, if_neg hk0, List.cons_append]
    rw [ih (fun kv2 hkv2 => h kv2 (List.mem_cons_of_mem _ hkv2))]

theorem siFind_absent_station {si : List SchedIdxRow} {s : String} (o : Option Int)
    (h : ∀ r ∈ si, r.station_id ≠ s) :
    siFind si s o = none := by
  unfold siFind
  refine List.find?_eq_none.mpr (fun r hr hm => ?_)
  exact h r hr (siMatches_elim hm).1

/-- A fingerprint response whose stations are all new to the index inserts
one row and marks one dirty day per station. -/
theorem ssiFlat_fresh (d : String) (info : DayInfo) (n lm : Int)
    (hd : date_to_int d = .ok (some n))
    (hsent : info.md5 ≠ SENTINEL_MD5)
    (hlm : convLastModified info.lastModified = .ok lm) :
    ∀ (ss : List String), ss.Nodup → ∀ (st : SSIState),
    (∀ s ∈ ss, ∀ r ∈ st.db.scheduleindex, r.station_id ≠ s) →
    (∀ s ∈ ss, ∀ kv ∈ st.new_schedules, kv.1 ≠ s) →
    ∃ st2, ssiFlat st (ss.map (fun s => (s, d, info))) = .ok st2 ∧
      st2.new_schedules.length = st.new_schedules.length + ss.length ∧
      st2.count_invalid = st.count_invalid := by
  intro ss
  induction ss with
  | nil =>
    intro _ st _ _
    exact ⟨st, rfl, rfl, rfl⟩
  | cons s rest ih =>
    intro hnd st hsi hns
    rw [List.nodup_cons] at hnd
    obtain ⟨hsrest, hndrest⟩ := hnd
    have hf : siFind st.db.scheduleindex s (some n) = none :=
      siFind_absent_station _ (fun r hr => hsi s (List.mem_cons_self _ _) r hr)
    have hstep := ssiProcessDay_insert hd hsent hf hlm
    have hins_ns : (insState st s d info (some n) lm).new_schedules
        = st.new_schedules ++ [(s, [d])] := by
      simp only [insState]
      exact dictAppendList_fresh _ _ _
        (fun kv hkv => hns s (List.mem_cons_self _ _) kv hkv)
    have hsi2 : ∀ s2 ∈ rest, ∀ r ∈ (insState st s d info (some n) lm).db.scheduleindex,
        r.station_id ≠ s2 := by
      intro s2 hs2 r hr
      simp only [insState] at hr
      rcases List.mem_append.mp hr with hmem | hmem
      · exact hsi s2 (List.mem_cons_of_mem _ hs2) r hmem
      · have hr2 : r.station_id = s := by
          rw [List.mem_singleton.mp hmem]
        intro he
        rw [hr2] at he
        subst he
        exact hsrest hs2
    have hns2 : ∀ s2 ∈ rest, ∀ kv ∈ (insState st s d info (some n) lm).new_schedules,
        kv.1 ≠ s2 := by
      intro s2 hs2 kv hkv
      rw [hins_ns] at hkv
      rcases List.mem_append.mp hkv with hmem | hmem
      · exact hns s2 (List.mem_cons_of_mem _ hs2) kv hmem
      · have hkv2 : kv = (s, [d]) := by simpa using hmem
        rw [hkv2]
        intro he
        subst he
        exact hsrest hs2
    obtain ⟨st2, hrun, hlen, hcnt⟩ := ih hndrest _ hsi2 hns2
    refine ⟨st2, ?_, ?_, ?_⟩
    · simp only [List.map_cons, ssiFlat]
      rw [hstep]
      simp only [except_bind_ok]
      exact hrun
    · have h1 : (insState st s d info (some n) lm).new_schedules.length
          = st.new_schedules.length + 1 := by
        rw [hins_ns, List.length_append]
        rfl
      rw [hlen, h1, List.length_cons]
      omega
    · rw [hcnt]
      rfl

theorem flatPairs_map_single (d : String) (info : DayInfo) (l : List String) :
    flatPairs (l.map (fun s => (s, [(d, info)]))) = l.map (fun s => (s, d, info)) := by
  induction l with
  | nil => rfl
  | cons s rest ih =>
    simp only [List.map_cons, flatPairs, List.flatMap_cons] at ih ⊢
    simp only [List.map_cons, List.map_nil, List.singleton_append]
    rw [ih]

/-- 501 watched stations, all new to the cache. -/
def c7Stations : List String :=
  (List.range 501).map (fun k => String.mk (List.replicate k 'a'))

theorem c7Stations_length : c7Stations.length = 501 := by
  simp [c7Stations]

theorem c7Stations_nodup : c7Stations.Nodup := by
  refine List.Nodup.map ?_ (List.nodup_range 501)
  intro a b h
  have h2 := congrArg (fun s : String => s.data.length) h
  simpa using h2

def c7Db : DB :=
  { stations := c7Stations.map (fun s =>
      { station_id := s, name := s, query_from_sd := true, active := true }),
    scheduleindex := [], nextScheduleIndexId := 0, schedule := [],
    nextScheduleId := 0, programdata := [] }

/-- The single day every station reports, fresh to the cache. -/
def c7Day : String := "2015-03-02"

def c7Info : DayInfo := { md5 := "90OhzuWDRZ", lastModified := some "2015-03-02T15:54:58Z" }

/-- A remote whose fingerprint response reports one new day for every
requested station. -/
def c7Remote : Remote :=
  { md5s := fun chunk => chunk.map (fun s => (s, [(c7Day, c7Info)])),
    schedules := fun _ => [],
    artwork := fun _ => [],
    programs := fun _ => [] }

theorem c7_gaqs : get_active_query_stations c7Db = c7Stations := by
  unfold get_active_query_stations c7Db
  rw [List.filter_map, List.map_map]
  rw [show ((fun s : StationRow => s.query_from_sd && s.active) ∘ (fun s : String =>
        ({ station_id := s, name := s, query_from_sd := true,
           active := true } : StationRow))) = (fun _ => true) from rfl]
  rw [List.filter_true]
  rw [show ((fun s : StationRow => s.station_id) ∘ (fun s : String =>
        ({ station_id := s, name := s, query_from_sd := true,
           active := true } : StationRow))) = (fun s => s) from rfl]
  simp

theorem c7_store : ∃ st2,
    store_schedule_index c7Db (c7Remote.md5s c7Stations) = .ok st2 ∧
    st2.new_schedules.length = 501 ∧ st2.count_invalid = 0 := by
  rw [store_schedule_index_eq_flat]
  have hflat : flatPairs (c7Remote.md5s c7Stations)
      = c7Stations.map (fun s => (s, c7Day, c7Info)) := flatPairs_map_single c7Day c7Info _
  rw [hflat]
  obtain ⟨st2, hrun, hlen, hcnt⟩ := ssiFlat_fresh c7Day c7Info 735659 1425311698
    (by decide) (by decide) (by decide) c7Stations c7Stations_nodup
    { db := c7Db, new_schedules := [], count_invalid := 0 }
    (by intro s _ r hr; simp [c7Db] at hr)
    (by intro s _ kv hkv; simp at hkv)
  refine ⟨st2, hrun, ?_, hcnt⟩
  rw [hlen, c7Stations_length]
  rfl

theorem c7_processChunk : processChunk c7Remote 0 c7Db c7Stations = .error .assertionError := by
  obtain ⟨st2, hssi, hlen, hcnt⟩ := c7_store
  simp only [processChunk]
  rw [if_neg (by rw [c7Stations_length]; decide)]
  rw [hssi]
  simp only [except_bind_ok]
  rw [if_neg (by rw [hcnt]; decide)]
  rw [if_pos (by rw [hlen]; decide), if_pos (by rw [hlen]; decide)]

theorem c7_stageBD : stageBD c7Remote 0 c7Db = .error .assertionError := by
  have hne : c7Stations ≠ [] := by
    intro h
    have h2 := congrArg List.length h
    rw [c7Stations_length] at h2
    simp at h2
  have hchunk : chunker c7Stations MAX_STATIONS_IDS = [c7Stations] :=
    chunker_single _ _ hne (by rw [c7Stations_length]; decide)
  simp only [stageBD]
  rw [c7_gaqs, if_neg hne, hchunk]
  simp [stageChunks, c7_processChunk]

/-- C7: the claim that every full-schedule fetch satisfies the
at-most-500-stations assertion inside `get_schedules` is false: a single
batch of 501 watched stations (well below the 5000-station fingerprint
ceiling) whose days are all new produces a dirty dict of 501 stations,
which `__main__` passes to `get_schedules` in one call, and the
`assert len(station_ids) <= 500` fails (modelled as `AssertionError`). -/
theorem claim_C7 :
    (get_active_query_stations c7Db).length = 501 ∧
    (get_active_query_stations c7Db).length ≤ MAX_STATIONS_IDS ∧
    (store_schedule_index c7Db (c7Remote.md5s (get_active_query_stations c7Db))).map
        (fun st => st.new_schedules.length) = .ok 501 ∧
    stageBD c7Remote 0 c7Db = .error .assertionError := by
  obtain ⟨st2, hssi, hlen, hcnt⟩ := c7_store
  refine ⟨?_, ?_, ?_, c7_stageBD⟩
  · rw [c7_gaqs, c7Stations_length]
  · rw [c7_gaqs, c7Stations_length]
    decide
  · rw [c7_gaqs, hssi]
    simp only [Except.map]
    rw [hlen]

/-- Witness for C9: a single entry whose only item has a size but no
category. -/
theorem claim_C9_witness :
    (({ programID := "EP00000000",
        data := some [{ caption := none, category := none, size := some "Md",
                        uri := "x", width := none, height := none }] } : ArtEntry).data
      = some [{ caption := none, category := none, size := some "Md",
                uri := "x", width := none, height := none }]) ∧
    proc_program_artwork_info
      [{ programID := "EP00000000",
         data := some [{ caption := none, category := none, size := some "Md",
                         uri := "x", width := none, height := none }] }]
      = .error .indexError :=
  ⟨rfl, claim_C9 [] []
    { programID := "EP00000000",
      data := some [{ caption := none, category := none, size := some "Md",
                      uri := "x", width := none, height := none }] }
    [{ caption := none, category := none, size := some "Md",
       uri := "x", width := none, height := none }]
    rfl (by decide) ⟨[], rfl⟩⟩


/-! ## Claim C1: fingerprint idempotence of the full Stage B-D sequence -/

theorem get_active_query_stations_congr {db1 db2 : DB} (h : db1.stations = db2.stations) :
    get_active_query_stations db1 = get_active_query_stations db2 := by
  unfold get_active_query_stations
  rw [h]

/-- `store_schedule_index` writes nothing when every pair is a sentinel or
an unchanged fingerprint. -/
theorem store_schedule_index_identity (db : DB) (data : SSIData)
    (h : ∀ p ∈ flatPairs data, pairOkB db p = true) :
    store_schedule_index db data
      = .ok { db := db, new_schedules := [], count_invalid := sentCount (flatPairs data) } := by
  rw [store_schedule_index_eq_flat]
  have hid := ssiFlat_identity (flatPairs data) db [] 0 h
  simpa using hid

/-- C1: the write stages are fingerprint-idempotent — `store_schedule_index`
touches no table when every fetched (station, day) fingerprint is a sentinel
or equals the stored one, `store_programs` touches no row (not even
`last_access`) when every fetched program fingerprint equals the cached one,
and a second full Stage B-D run against the unchanged remote returns the
first run's database unchanged (for a fingerprint response with unique,
chunk-disjoint keys and valid day strings). -/
theorem claim_C1 (db db1 : DB) (remote : Remote) (now1 now2 : Int)
    (hwf : DBWF db)
    (hnd : ∀ c ∈ chunker (get_active_query_stations db) MAX_STATIONS_IDS,
       ((flatPairs (remote.md5s c)).map pairKey).Nodup)
    (hdisj : (chunker (get_active_query_stations db) MAX_STATIONS_IDS).Pairwise
       (fun c1 c2 => ∀ s ∈ stationsOf (remote.md5s c1), s ∉ stationsOf (remote.md5s c2)))
    (hdates : ∀ c ∈ chunker (get_active_query_stations db) MAX_STATIONS_IDS,
       ∀ p ∈ flatPairs (remote.md5s c), dateSomeB p.2.1 = true)
    (h1 : stageBD remote now1 db = .ok db1) :
    (∀ (d : DB) (data : SSIData), (∀ p ∈ flatPairs data, pairOkB d p = true) →
       store_schedule_index d data
         = .ok { db := d, new_schedules := [], count_invalid := sentCount (flatPairs data) }) ∧
    (∀ (d : DB) (items : List ProgItem) (art : Option (List (String × AssetVal))) (now : Int),
       (∀ item ∈ items, progMatchedB d.programdata item = true) →
       store_programs d items art now = .ok d) ∧
    stageBD remote now2 db1 = .ok db1 := by
  refine ⟨store_schedule_index_identity, ?_, ?_⟩
  · intro d items art now h
    exact spItems_identity items d now art h
  · unfold stageBD at h1 ⊢
    by_cases hq : get_active_query_stations db = []
    · rw [if_pos hq] at h1
      have hdb1 : db = db1 := except_ok_inj h1
      subst hdb1
      rw [if_pos hq]
    · rw [if_neg hq] at h1
      obtain ⟨hwf1, hst1, hpres1, hpm1, hsent1, hlen1⟩ :=
        stageChunks_facts _ remote now1 db db1 hwf hnd hdisj h1
      have hq1 : get_active_query_stations db1 = get_active_query_stations db :=
        get_active_query_stations_congr hst1
      rw [hq1, if_neg hq]
      refine stageChunks_run2 _ remote now2 db1 ?_ hsent1 hlen1
      intro c hc p hp
      have hsentp : isNotSentinel p = true :=
        sentCount_zero_no_sentinel (hsent1 c hc) p hp
      have hdatep : dateSomeB p.2.1 = true := hdates c hc p hp
      have hmatched : pairMatchedB db1 p = true := hpm1 c hc p hp hsentp hdatep
      unfold pairOkB
      rw [dateSomeB_noErr hdatep, hmatched]
      simp

/-- One watched station with an empty cache. -/
def c1Db : DB :=
  { stations := [{ station_id := "s1", name := "One", query_from_sd := true, active := true }],
    scheduleindex := [], nextScheduleIndexId := 0, schedule := [], nextScheduleId := 0,
    programdata := [] }

/-- A remote reporting one day for the station, with an empty program list
for it. -/
def c1Remote : Remote :=
  { md5s := fun chunk => chunk.map (fun s =>
      (s, [("2015-03-02", { md5 := "m1", lastModified := some "2015-03-02T15:54:58Z" })])),
    schedules := fun _ => [{ stationID := "s1", startDate := "2015-03-02", programs := [] }],
    artwork := fun _ => [],
    programs := fun _ => [] }

/-- The cache after the first Stage B-D run on `c1Db`. -/
def c1Db1 : DB :=
  { stations := [{ station_id := "s1", name := "One", query_from_sd := true, active := true }],
    scheduleindex := [{ id := 0, station_id := "s1", startdate := some 735659,
                        last_modified := 1425311698, md5 := "m1" }],
    nextScheduleIndexId := 1, schedule := [], nextScheduleId := 0, programdata := [] }

theorem c1_gaqs : get_active_query_stations c1Db = ["s1"] := by decide

theorem c1_chunks : chunker (get_active_query_stations c1Db) MAX_STATIONS_IDS = [["s1"]] := by
  rw [c1_gaqs]
  exact chunker_single _ _ (by decide) (by decide)

theorem c1_run1 : stageBD c1Remote 0 c1Db = .ok c1Db1 := by
  have hpc : processChunk c1Remote 0 c1Db ["s1"] = .ok c1Db1 := by decide
  simp only [stageBD]
  rw [c1_chunks, c1_gaqs]
  rw [if_neg (by decide : ¬ (["s1"] : List String) = [])]
  simp [stageChunks, hpc]

/-- Witness for C1: a first run inserts the fetched day, and the second
run against the unchanged remote returns its database unchanged. -/
theorem claim_C1_witness :
    stageBD c1Remote 0 c1Db = .ok c1Db1 ∧
    stageBD c1Remote 1 c1Db1 = .ok c1Db1 :=
  ⟨c1_run1,
   (claim_C1 c1Db c1Db1 c1Remote 0 1 ⟨by decide, by decide, by decide⟩
      (by rw [c1_chunks]; decide) (by rw [c1_chunks]; decide) (by rw [c1_chunks]; decide)
      c1_run1).2.2⟩

/-! ## Claim C2: cascade integrity of a fingerprint change -/

/-- Shape of the changed-fingerprint branch: the owned `schedule` rows are
deleted and the index row is updated in place, keeping its rowid. -/
theorem ssiProcessDay_update_shape {st st2 : SSIState} {s d : String} {info : DayInfo}
    {res : SchedIdxRow}
    (hids : (st.db.scheduleindex.map (fun r => r.id)).Nodup)
    (h : ssiProcessDay st s d info = .ok st2)
    (hsent : info.md5 ≠ SENTINEL_MD5)
    (hsome : ∃ n, resolveDate d = some n)
    (hfind : siFind st.db.scheduleindex s (resolveDate d) = some res)
    (hmd : res.md5 ≠ info.md5) :
    st2.db.schedule = st.db.schedule.filter (fun e => e.scheduleindex != res.id) ∧
    ∃ lm, convLastModified info.lastModified = .ok lm ∧
      siFind st2.db.scheduleindex s (resolveDate d)
        = some { res with station_id := s, startdate := resolveDate d,
                          last_modified := lm, md5 := info.md5 } := by
  obtain ⟨o, ho, hcase⟩ := ssiProcessDay_inv h
  have hres_o : resolveDate d = o := by simp [resolveDate, ho]
  rw [hres_o] at hfind
  obtain ⟨n, hn⟩ := hsome
  have ho_n : o = some n := by rw [← hres_o, hn]
  rcases hcase with ⟨hs, rfl⟩ | ⟨hs, res2, hf, hmd2, rfl⟩
    | ⟨hs, res2, lm, hf, hmd2, hcv, rfl⟩ | ⟨hs, lm, hf, hcv, rfl⟩
  · exact absurd hs hsent
  · rw [hfind] at hf
    have hres2 : res = res2 := Option.some.inj hf
    rw [← hres2] at hmd2
    exact absurd hmd2 hmd
  · rw [hfind] at hf
    have hres2 : res = res2 := Option.some.inj hf
    subst hres2
    refine ⟨rfl, lm, hcv, ?_⟩
    rw [hres_o]
    have hresmem : res ∈ st.db.scheduleindex := siFind_mem hfind
    have hupmatch : siMatches
        { res with station_id := s, startdate := o, last_modified := lm, md5 := info.md5 }
        s o = true := by
      rw [ho_n]
      exact siMatches_intro rfl rfl
    unfold siFind at hfind ⊢
    simp only [updState]
    have hmain := find?_map_update (p := fun r => siMatches r s o)
      (f := fun r => if r.id = res.id then
          { r with station_id := s, startdate := o, last_modified := lm, md5 := info.md5 }
        else r)
      hfind (by simpa using hupmatch)
      (fun x hx hxne => by
        have hxid : x.id ≠ res.id := fun hxe => hxne (si_id_inj hids hx hresmem hxe)
        simp [hxid])
    simpa using hmain
  · rw [hfind] at hf
    cases hf

/-- C2: when the stored fingerprint for a fetched (station, day) differs
from the fetched one, `store_schedule_index` deletes every `schedule` row
owned by that `scheduleindex` rowid and updates the row in place (same
rowid, same key, new fingerprint), and after the subsequent
`store_schedules` run the `schedule` rows owned by that rowid are exactly
the entries of the new fetch targeting it — no row from before the change
survives. -/
theorem claim_C2 (db : DB) (data : SSIData) (data2 : List SchedItem)
    (s d : String) (info : DayInfo) (R : SchedIdxRow)
    (st : SSIState) (db2 : DB) (upd : List String)
    (hwf : DBWF db)
    (hnd : ((flatPairs data).map pairKey).Nodup)
    (hp : (s, d, info) ∈ flatPairs data)
    (hsent : info.md5 ≠ SENTINEL_MD5)
    (hsome : ∃ n, resolveDate d = some n)
    (hfind : siFind db.scheduleindex s (resolveDate d) = some R)
    (hmd : R.md5 ≠ info.md5)
    (hssi : store_schedule_index db data = .ok st)
    (hss : store_schedules st.db data2 = .ok (db2, upd)) :
    st.db.schedule.filter (fun e => e.scheduleindex == R.id) = [] ∧
    (∃ R2, siFind st.db.scheduleindex s (resolveDate d) = some R2 ∧
       R2.id = R.id ∧ R2.station_id = s ∧ R2.startdate = resolveDate d ∧
       R2.md5 = info.md5) ∧
    (db2.schedule.filter (fun e => e.scheduleindex == R.id)).map entryContent
      = (data2.filter (fun it => resolveIdx st.db it == some R.id)).flatMap
          (fun it => it.programs.map (fun p => progContent it p)) ∧
    (∀ e ∈ db2.schedule, e.scheduleindex = R.id → e ∉ db.schedule) := by
  obtain ⟨l1, l2, hsplit⟩ := List.append_of_mem hp
  rw [store_schedule_index_eq_flat, hsplit, ssiFlat_append] at hssi
  cases hA : ssiFlat { db := db, new_schedules := [], count_invalid := 0 } l1 with
  | error e => rw [hA] at hssi; simp at hssi
  | ok stA =>
  rw [hA] at hssi
  simp only [except_bind_ok] at hssi
  simp only [ssiFlat] at hssi
  cases hB : ssiProcessDay stA s d info with
  | error e => rw [hB] at hssi; simp at hssi
  | ok st1 =>
  rw [hB] at hssi
  simp only [except_bind_ok] at hssi
  -- key disjointness from the Nodup hypothesis
  rw [hsplit, List.map_append, List.nodup_append] at hnd
  obtain ⟨hnd1, hndc, hdisj12⟩ := hnd
  rw [List.map_cons, List.nodup_cons] at hndc
  obtain ⟨hkey2, hnd2⟩ := hndc
  have hkeyp : pairKey (s, d, info) = (s, resolveDate d) := rfl
  have hne1 : ∀ q ∈ l1, (s, resolveDate d) ≠ pairKey q := by
    intro q hq heq
    have hmem1 : pairKey q ∈ l1.map pairKey := List.mem_map_of_mem pairKey hq
    have hmem2 : pairKey q ∈ pairKey (s, d, info) :: l2.map pairKey := by
      rw [hkeyp, ← heq]
      exact List.mem_cons_self _ _
    exact hdisj12 hmem1 hmem2
  have hne2 : ∀ q ∈ l2, (s, resolveDate d) ≠ pairKey q := by
    intro q hq heq
    apply hkey2
    rw [hkeyp, heq]
    exact List.mem_map_of_mem pairKey hq
  -- facts about the prefix l1
  obtain ⟨hwfA, hstA, hpdA, hnschedA, hnsiA, hsubA, hpresA, hpmA⟩ :=
    ssiFlat_facts l1 _ stA hwf hnd1 hA
  have hfilterA : siFilter stA.db.scheduleindex s (resolveDate d)
      = siFilter db.scheduleindex s (resolveDate d) := hpresA s (resolveDate d) hne1
  have hfindA : siFind stA.db.scheduleindex s (resolveDate d) = some R := by
    rw [siFind_eq_head, hfilterA, ← siFind_eq_head]
    exact hfind
  -- the changed-fingerprint step
  obtain ⟨hsched1, lm, hlm, hfind1⟩ :=
    ssiProcessDay_update_shape hwfA.siIdsNodup hB hsent hsome hfindA hmd
  have hwf1 : DBWF st1.db := ssiProcessDay_wf hwfA hB
  have hempty1 : st1.db.schedule.filter (fun e => e.scheduleindex == R.id) = [] := by
    rw [hsched1]
    refine List.filter_eq_nil_iff.mpr (fun e he => ?_)
    have hne := (List.mem_filter.mp he).2
    simp only [bne_iff_ne, ne_eq] at hne
    simp [hne]
  -- facts about the suffix l2
  obtain ⟨hwfS, hstS, hpdS, hnschedS, hnsiS, hsubS, hpresS, hpmS⟩ :=
    ssiFlat_facts l2 st1 st hwf1 hnd2 hssi
  have hfilterS : siFilter st.db.scheduleindex s (resolveDate d)
      = siFilter st1.db.scheduleindex s (resolveDate d) := hpresS s (resolveDate d) hne2
  have hfindS : siFind st.db.scheduleindex s (resolveDate d)
      = some { R with station_id := s, startdate := resolveDate d,
                      last_modified := lm, md5 := info.md5 } := by
    rw [siFind_eq_head, hfilterS, ← siFind_eq_head]
    exact hfind1
  have hemptyS : st.db.schedule.filter (fun e => e.scheduleindex == R.id) = [] := by
    have hsubf := hsubS.filter (fun e => e.scheduleindex == R.id)
    rw [hempty1] at hsubf
    exact List.sublist_nil.mp hsubf
  -- the next schedule rowid is untouched by the whole index pass
  obtain ⟨_, _, hnsched1, _, _⟩ := ssiProcessDay_fields hB
  have hnschedSt : st.db.nextScheduleId = db.nextScheduleId := by
    rw [hnschedS, hnsched1, hnschedA]
  -- facts about store_schedules
  unfold store_schedules at hss
  obtain ⟨hst2, hsi2, hnsi2, hpd2, hle2, rows, hrows, hprops, hfilter⟩ :=
    ssItems_facts data2 st.db [] db2 upd hss
  refine ⟨hemptyS, ⟨_, hfindS, rfl, rfl, rfl, rfl⟩, ?_, ?_⟩
  · rw [hrows, List.filter_append, hemptyS, List.nil_append]
    exact hfilter R.id
  · intro e he hidx hmemdb
    rw [hrows] at he
    rcases List.mem_append.mp he with hmem | hmem
    · have := List.filter_eq_nil_iff.mp hemptyS e hmem
      simp [hidx] at this
    · have hge := (hprops e hmem).1
      have hlt := hwf.schedIdsLt e hmemdb
      rw [← hnschedSt] at hlt
      omega

/-- A cache holding one index row with an old fingerprint and one
`schedule` row owned by it. -/
def c2Db : DB :=
  { stations := [],
    scheduleindex := [{ id := 0, station_id := "s1", startdate := some 735659,
                        last_modified := 100, md5 := "old" }],
    nextScheduleIndexId := 1,
    schedule := [{ id := 0, station_id := "s1", scheduleindex := 0, program_id := "EP1",
                   airtime := 50, duration := 60, audioProperties := none,
                   videoProperties := none }],
    nextScheduleId := 1, programdata := [] }

def c2Info : DayInfo := { md5 := "new", lastModified := some "2015-03-02T15:54:58Z" }

/-- The fetched fingerprint response: the same day, a changed fingerprint. -/
def c2Data : SSIData := [("s1", [("2015-03-02", c2Info)])]

def c2Prog : ProgramEntry :=
  { programID := "EP2", md5 := "pm", airDateTime := "2015-03-02T16:00:00Z", duration := 1800,
    audioProperties := none, videoProperties := none }

/-- The new full-schedule fetch for the changed day. -/
def c2Data2 : List SchedItem :=
  [{ stationID := "s1", startDate := "2015-03-02", programs := [c2Prog] }]

def c2R : SchedIdxRow :=
  { id := 0, station_id := "s1", startdate := some 735659, last_modified := 100, md5 := "old" }

/-- The state after `store_schedule_index`: the old entry deleted, the
index row updated in place. -/
def c2St : SSIState :=
  { db := { stations := [],
            scheduleindex := [{ id := 0, station_id := "s1", startdate := some 735659,
                                last_modified := 1425311698, md5 := "new" }],
            nextScheduleIndexId := 1, schedule := [], nextScheduleId := 1, programdata := [] },
    new_schedules := [("s1", ["2015-03-02"])], count_invalid := 0 }

/-- The database after `store_schedules`: exactly the newly fetched entry. -/
def c2Db2 : DB :=
  { stations := [],
    scheduleindex := [{ id := 0, station_id := "s1", startdate := some 735659,
                        last_modified := 1425311698, md5 := "new" }],
    nextScheduleIndexId := 1,
    schedule := [{ id := 1, station_id := "s1", scheduleindex := 0, program_id := "EP2",
                   airtime := 1425312000, duration := 1800, audioProperties := none,
                   videoProperties := none }],
    nextScheduleId := 2, programdata := [] }

/-- Witness for C2 at a concrete fingerprint change. -/
theorem claim_C2_witness :
    c2St.db.schedule.filter (fun e => e.scheduleindex == c2R.id) = [] ∧
    (c2Db2.schedule.filter (fun e => e.scheduleindex == c2R.id)).map entryContent
      = (c2Data2.filter (fun it => resolveIdx c2St.db it == some c2R.id)).flatMap
          (fun it => it.programs.map (fun p => progContent it p)) := by
  have h := claim_C2 c2Db c2Data c2Data2 "s1" "2015-03-02" c2Info c2R c2St c2Db2 ["EP2"]
    ⟨by decide, by decide, by decide⟩ (by decide) (by decide) (by decide)
    ⟨(735659 : Int), by decide⟩ (by decide) (by decide) (by decide) (by decide)
  exact ⟨h.1, h.2.2.1⟩


end SDJ
